/-
Verification of the sindoq code-execution sandbox SDK core.

This file gives a shallow embedding, in Lean 4, of the components of the
sindoq repository that the checked claims are about:

* the execution-options model and its merge (pkg/executor/result.go);
* the provider registry (internal/factory/registry.go);
* the output-stream plumbing (pkg/executor, OutputStream);
* the runtime catalog and its lookup (pkg/langdetect);
* the language detector, including its heuristic regex stage
  (pkg/langdetect, Detector);
* the nsjail and docker backend instances (internal/provider/nsjail,
  internal/provider/docker), embedded as state machines over an explicit
  world oracle, with a trace of the backend/OS effects they perform.

Go machine integers are modelled as Nat/Int; time.Duration as nanoseconds
(Nat); Go maps as association lists; nil-able Go values as Option; a Go
(value, error) pair as Except or a product with Option for the error.
float64 confidence values are modelled as exact rationals (every
confidence occurring in the source is an exact decimal).  Where the code
interacts with the outside world (the OS, the docker daemon, third-party
library calls) the interaction is modelled by an explicit oracle argument
and recorded in an effect trace, so that "performs no backend call" is a
provable statement about the trace.
-/
import Mathlib

set_option autoImplicit false
set_option maxRecDepth 100000

deriving instance DecidableEq for Except

namespace Sindoq

/-! ## String helpers

Models of the Go standard-library string functions that the embedded code
uses.  `strings.ToLower` is modelled on ASCII letters (every string in the
runtime catalog and every lookup considered by the claims is ASCII). -/

/-- Model of `strings.ToLower` restricted to ASCII. -/
def goToLowerChar (c : Char) : Char :=
  if 'A' ≤ c ∧ c ≤ 'Z' then Char.ofNat (c.toNat + 32) else c

/-- `strings.ToLower` over a whole string. -/
def goToLower (s : String) : String :=
  String.mk (s.data.map goToLowerChar)

/-- Model of `strings.Contains` (substring test). -/
def goContains (hay needle : String) : Bool :=
  decide (needle.data <:+: hay.data)

/-- First-match association-list lookup: the model of a Go map read.
Go maps never hold two bindings of one key, so first-match is exact. -/
def assocLookup {α : Type} (l : List (String × α)) (k : String) : Option α :=
  (l.find? (fun p => p.1 == k)).map (fun p => p.2)

/-- Go map assignment `m[k] = v`: overwrite the binding if the key is
present, append it otherwise. -/
def mapInsert {α : Type} (l : List (String × α)) (k : String) (v : α) :
    List (String × α) :=
  if l.any (fun p => p.1 == k) then
    l.map (fun p => if p.1 == k then (k, v) else p)
  else l ++ [(k, v)]

theorem assocLookup_of_mem {α : Type} (l : List (String × α)) (k : String)
    (v : α) (hnd : (l.map Prod.fst).Nodup) (hmem : (k, v) ∈ l) :
    assocLookup l k = some v := by
  induction l with
  | nil => cases hmem
  | cons p rest ih =>
    rcases List.mem_cons.mp hmem with h | h
    · subst h
      simp [assocLookup]
    · have hk : p.1 ≠ k := by
        intro hkk
        have : k ∈ rest.map Prod.fst := by
          exact List.mem_map.mpr ⟨(k, v), h, rfl⟩
        rw [List.map_cons, List.nodup_cons] at hnd
        exact hnd.1 (hkk ▸ this)
      have := ih (by rw [List.map_cons, List.nodup_cons] at hnd; exact hnd.2) h
      simpa [assocLookup, hk] using this

theorem mem_of_assocLookup {α : Type} (l : List (String × α)) (k : String)
    (v : α) (h : assocLookup l k = some v) : (k, v) ∈ l := by
  unfold assocLookup at h
  cases hf : l.find? (fun p => p.1 == k) with
  | none => rw [hf] at h; cases h
  | some q =>
    rw [hf] at h
    have hq : q ∈ l := List.mem_of_find?_eq_some hf
    have hk : q.1 = k := by
      have := List.find?_some hf
      simpa using this
    simp only [Option.map_some'] at h
    obtain ⟨q1, q2⟩ := q
    cases h
    cases hk
    exact hq

/-! ## Go error values

A Go `error` is modelled as a message together with an optional wrapped
inner error (produced by `fmt.Errorf` with `%w`).  `GoError.is` models
`errors.Is` over the unwrap chain. -/

/-- A Go error value: either a plain `errors.New`/`fmt.Errorf` message or a
`fmt.Errorf("...: %w", err)` wrapper. -/
inductive GoError where
  | base (msg : String)
  | wrap (msg : String) (err : GoError)
deriving DecidableEq, Repr

/-- Model of `errors.Is e target` over the unwrap chain. -/
def GoError.is : GoError → GoError → Bool
  | .base m, target => GoError.base m == target
  | .wrap m inner, target => GoError.wrap m inner == target || inner.is target

/-- The `Error()` string of a Go error; `fmt.Errorf("m: %w", e)` formats
as `"m: " ++ e.Error()`. -/
def GoError.msg : GoError → String
  | .base m => m
  | .wrap m inner => m ++ ": " ++ inner.msg

namespace Executor

/-! ## pkg/executor/result.go -/

/-- `executor.ExecutionOptions` (pkg/executor/result.go).  `Timeout` is a
`time.Duration` in nanoseconds; `Env` and `Files` are Go maps that may be
nil, modelled as `Option` of an association list. -/
structure ExecutionOptions where
  Language : String
  Filename : String
  Timeout : Nat
  Env : Option (List (String × String))
  WorkDir : String
  Stdin : String
  Files : Option (List (String × String))
  KeepArtifacts : Bool
deriving Repr, DecidableEq

/-- `executor.DefaultExecutionOptions` (pkg/executor/result.go):
30s timeout, `/workspace` working directory, empty (non-nil) `Env` and
`Files` maps, all other fields zero. -/
def DefaultExecutionOptions : ExecutionOptions :=
  { Language := ""
    Filename := ""
    Timeout := 30 * 1000000000
    Env := some []
    WorkDir := "/workspace"
    Stdin := ""
    Files := some []
    KeepArtifacts := false }

/-- `(*ExecutionOptions).Merge` (pkg/executor/result.go).  A nil receiver
returns `defaults`; otherwise the receiver is copied and the four fields
`Timeout`, `WorkDir`, `Env`, `Files` fall back to `defaults` when they are
zero-valued. -/
def ExecutionOptions.Merge (o : Option ExecutionOptions)
    (defaults : ExecutionOptions) : ExecutionOptions :=
  match o with
  | none => defaults
  | some o =>
    let result := o
    let result := if result.Timeout = 0 then
      { result with Timeout := defaults.Timeout } else result
    let result := if result.WorkDir = "" then
      { result with WorkDir := defaults.WorkDir } else result
    let result := if result.Env = none then
      { result with Env := defaults.Env } else result
    let result := if result.Files = none then
      { result with Files := defaults.Files } else result
    result

end Executor

/-! ### Claim C3: options merge -/

open Executor in
/-- C3.  Merging execution options onto the defaults
(`DefaultExecutionOptions`): a nil options value merges to the defaults,
and for every options value `o` and every field, the merged field equals
`o`'s field when that field is non-zero (non-empty string, non-zero
duration, non-nil map, true flag) and the default's field otherwise. -/
theorem C3_options_merge (o : ExecutionOptions) :
    ExecutionOptions.Merge none DefaultExecutionOptions =
      DefaultExecutionOptions ∧
    (let m := ExecutionOptions.Merge (some o) DefaultExecutionOptions
     (o.Language ≠ "" → m.Language = o.Language) ∧
     (o.Language = "" → m.Language = DefaultExecutionOptions.Language) ∧
     (o.Filename ≠ "" → m.Filename = o.Filename) ∧
     (o.Filename = "" → m.Filename = DefaultExecutionOptions.Filename) ∧
     (o.Timeout ≠ 0 → m.Timeout = o.Timeout) ∧
     (o.Timeout = 0 → m.Timeout = DefaultExecutionOptions.Timeout) ∧
     (o.Env ≠ none → m.Env = o.Env) ∧
     (o.Env = none → m.Env = DefaultExecutionOptions.Env) ∧
     (o.WorkDir ≠ "" → m.WorkDir = o.WorkDir) ∧
     (o.WorkDir = "" → m.WorkDir = DefaultExecutionOptions.WorkDir) ∧
     (o.Stdin ≠ "" → m.Stdin = o.Stdin) ∧
     (o.Stdin = "" → m.Stdin = DefaultExecutionOptions.Stdin) ∧
     (o.Files ≠ none → m.Files = o.Files) ∧
     (o.Files = none → m.Files = DefaultExecutionOptions.Files) ∧
     (o.KeepArtifacts = true → m.KeepArtifacts = o.KeepArtifacts) ∧
     (o.KeepArtifacts = false →
       m.KeepArtifacts = DefaultExecutionOptions.KeepArtifacts)) := by
  refine ⟨rfl, ?_⟩
  obtain ⟨L, F, T, E, W, S, Fi, K⟩ := o
  simp only [Executor.ExecutionOptions.Merge]
  split_ifs <;> simp_all [DefaultExecutionOptions]

open Executor in
/-- Witness for C3 at the concrete options of spec scenario 8:
`{language := "Go", timeout := 1m}` merged onto the defaults keeps the
language and timeout and takes the default working directory. -/
theorem C3_options_merge_witness :
    (ExecutionOptions.Merge
        (some { Language := "Go", Filename := "", Timeout := 60 * 1000000000,
                Env := none, WorkDir := "", Stdin := "", Files := none,
                KeepArtifacts := false })
        DefaultExecutionOptions).Language = "Go" ∧
    (ExecutionOptions.Merge
        (some { Language := "Go", Filename := "", Timeout := 60 * 1000000000,
                Env := none, WorkDir := "", Stdin := "", Files := none,
                KeepArtifacts := false })
        DefaultExecutionOptions).Timeout = 60 * 1000000000 ∧
    (ExecutionOptions.Merge
        (some { Language := "Go", Filename := "", Timeout := 60 * 1000000000,
                Env := none, WorkDir := "", Stdin := "", Files := none,
                KeepArtifacts := false })
        DefaultExecutionOptions).WorkDir = "/workspace" := by
  have h := C3_options_merge
    { Language := "Go", Filename := "", Timeout := 60 * 1000000000,
      Env := none, WorkDir := "", Stdin := "", Files := none,
      KeepArtifacts := false }
  refine ⟨h.2.1 (by decide), h.2.2.2.2.2.1 (by decide), ?_⟩
  have := h.2.2.2.2.2.2.2.2.2.2.1 (by decide)
  simpa [DefaultExecutionOptions] using this

namespace Factory

/-! ## internal/factory/registry.go

The registry maps provider names to constructors and caches constructed
providers.  The provider and configuration types are abstract (`Provider`
is an interface, `config` is `any` in the source); the model takes them as
type parameters.  A constructor is `config → (Provider, error)`, modelled
as `Except GoError Provider`.  `Get` additionally reports how many times
it invoked a constructor, so that "without invoking the constructor" is a
provable statement. -/

/-- `factory.Registry` (internal/factory/registry.go): a constructor table
and a cache of constructed providers. -/
structure Registry (Config Provider : Type) where
  constructors : List (String × (Config → Except GoError Provider))
  providers : List (String × Provider)

/-- Outcome of `Registry.Get`: the updated registry, the returned
provider-or-error, and the number of constructor invocations performed. -/
structure GetOutcome (Config Provider : Type) where
  registry : Registry Config Provider
  result : Except GoError Provider
  constructorCalls : Nat

/-- `(*Registry).Get` (internal/factory/registry.go lines 50-75): return
the cached provider if present; otherwise look up the constructor, invoke
it, report a wrapped error on failure (caching nothing), and cache and
return the new provider on success. -/
def Registry.Get {Config Provider : Type} (r : Registry Config Provider)
    (name : String) (config : Config) : GetOutcome Config Provider :=
  match assocLookup r.providers name with
  | some p => ⟨r, .ok p, 0⟩
  | none =>
    match assocLookup r.constructors name with
    | none =>
      ⟨r, .error (.base ("provider \"" ++ name ++ "\" not registered")), 0⟩
    | some ctor =>
      match ctor config with
      | .error err =>
        ⟨r, .error (.wrap ("failed to create provider \"" ++ name ++ "\"")
            err), 1⟩
      | .ok p =>
        ⟨{ r with providers := r.providers ++ [(name, p)] }, .ok p, 1⟩

end Factory

/-! ### Claim C7: registry get caching -/

open Factory in
/-- C7.  `Registry.Get(name, config)`: a cached provider is returned
without invoking any constructor and without touching the cache; on a
cache miss the registered constructor is invoked once, its provider is
cached under `name` and returned; and when the constructor fails its
error is reported (wrapped with the provider name, `errors.Is`-reachable)
while the provider cache is left unchanged. -/
theorem C7_registry_get {Config Provider : Type}
    (r : Registry Config Provider) (name : String) (config : Config) :
    (∀ p, assocLookup r.providers name = some p →
      r.Get name config = ⟨r, .ok p, 0⟩) ∧
    (∀ ctor, assocLookup r.providers name = none →
      assocLookup r.constructors name = some ctor →
      (∀ p, ctor config = .ok p →
        r.Get name config =
          ⟨{ r with providers := r.providers ++ [(name, p)] }, .ok p, 1⟩ ∧
        assocLookup (r.Get name config).registry.providers name = some p) ∧
      (∀ err, ctor config = .error err →
        (r.Get name config).registry = r ∧
        (r.Get name config).result =
          .error (.wrap ("failed to create provider \"" ++ name ++ "\"")
            err) ∧
        ∀ e, (r.Get name config).result = .error e → e.is err = true)) := by
  constructor
  · intro p hp
    simp [Registry.Get, hp]
  · intro ctor hmiss hctor
    constructor
    · intro p hok
      have hget : r.Get name config =
          ⟨{ r with providers := r.providers ++ [(name, p)] }, .ok p, 1⟩ := by
        simp [Registry.Get, hmiss, hctor, hok]
      refine ⟨hget, ?_⟩
      rw [hget]
      -- the cache miss means `name` is not a key of `r.providers`, so the
      -- appended binding is the one found
      have hfind : r.providers.find? (fun p => p.1 == name) = none := by
        unfold assocLookup at hmiss
        cases h : r.providers.find? (fun p => p.1 == name) with
        | none => rfl
        | some q => rw [h] at hmiss; simp at hmiss
      simp [assocLookup, List.find?_append, hfind]
    · intro err herr
      have hget : r.Get name config =
          ⟨r, .error (.wrap ("failed to create provider \"" ++ name ++ "\"")
            err), 1⟩ := by
        simp [Registry.Get, hmiss, hctor, herr]
      rw [hget]
      refine ⟨rfl, rfl, ?_⟩
      intro e he
      simp only [Except.error.injEq] at he
      subst he
      cases err <;> simp [GoError.is]

open Factory in
/-- Witness for C7 on a concrete registry over `Nat` configurations and
providers: a cached hit, a successful construction, and a failing
construction. -/
theorem C7_registry_get_witness :
    (Registry.Get (⟨[("mock", fun c => .ok (c + 1))], [("mock", 7)]⟩ :
        Registry Nat Nat) "mock" 0).result = .ok 7 ∧
    (Registry.Get (⟨[("mock", fun c => .ok (c + 1))], [("mock", 7)]⟩ :
        Registry Nat Nat) "mock" 0).constructorCalls = 0 ∧
    (Registry.Get (⟨[("mock", fun c => .ok (c + 1))], []⟩ :
        Registry Nat Nat) "mock" 41).result = .ok 42 ∧
    (Registry.Get (⟨[("bad", fun _ => .error (.base "boom"))], []⟩ :
        Registry Nat Nat) "bad" 0).registry.providers = [] := by
  have h1 := (C7_registry_get
      (⟨[("mock", fun c => .ok (c + 1))], [("mock", 7)]⟩ :
        Registry Nat Nat) "mock" 0).1 7 rfl
  have h2 := ((C7_registry_get
      (⟨[("mock", fun c => .ok (c + 1))], []⟩ :
        Registry Nat Nat) "mock" 41).2
      (fun c => .ok (c + 1)) rfl rfl).1 42 rfl
  have h3 := ((C7_registry_get
      (⟨[("bad", fun _ => .error (.base "boom"))], []⟩ :
        Registry Nat Nat) "bad" 0).2
      (fun _ => .error (.base "boom")) rfl rfl).2 (.base "boom") rfl
  refine ⟨by rw [h1], by rw [h1], by rw [h2.1], by rw [h3.1]⟩

namespace Executor

/-! ## pkg/executor stream plumbing (OutputStream)

The buffered channel is modelled as its current contents (a list of
events, at most `capacity` many); the non-blocking `select` send is
"append if `length < capacity`, else drop".  `time.Now()` is an explicit
`now` argument.  `WriteEvent` additionally reports how many inline
handlers it invoked, so that "remaining handlers are not invoked" is a
provable statement. -/

/-- `executor.StreamStdout` — the stream event type tags are Go string
constants. -/
def StreamStdout : String := "stdout"

/-- `executor.StreamStderr`. -/
def StreamStderr : String := "stderr"

/-- `executor.StreamStart`. -/
def StreamStart : String := "start"

/-- `executor.StreamComplete`. -/
def StreamComplete : String := "complete"

/-- `executor.StreamError`. -/
def StreamError : String := "error"

/-- `executor.StreamEvent`.  The source field `Type` is `type` here
(`Type` is reserved in Lean); `Timestamp` is an abstract clock reading. -/
structure StreamEvent where
  type : String
  Data : String
  Timestamp : Nat
  ExitCode : Int
  Error : Option GoError
deriving Repr, DecidableEq

/-- A `executor.StreamHandler`: consumes an event and may return an
error. -/
def StreamHandler : Type := StreamEvent → Option GoError

/-- `io.ErrClosedPipe` from the Go standard library. -/
def ErrClosedPipe : GoError := .base "io: read/write on closed pipe"

/-- `executor.OutputStream`: buffered event channel (contents plus
capacity), registered inline handlers, closed flag and the fixed event
type tag of this stream. -/
structure OutputStream where
  events : List StreamEvent
  capacity : Nat
  handlers : List StreamHandler
  closed : Bool
  eventType : String

/-- `executor.NewOutputStream`. -/
def NewOutputStream (bufferSize : Nat) (eventType : String) : OutputStream :=
  { events := [], capacity := bufferSize, handlers := [], closed := false,
    eventType := eventType }

/-- The handler loop of `WriteEvent`: invoke handlers in registration
order, stopping at (and returning) the first error; also count how many
handlers were invoked. -/
def runHandlers (event : StreamEvent) : List StreamHandler →
    Option GoError × Nat
  | [] => (none, 0)
  | h :: rest =>
    match h event with
    | some err => (some err, 1)
    | none =>
      let r := runHandlers event rest
      (r.1, r.2 + 1)

/-- Outcome of `WriteEvent`: updated stream, returned error and the
number of inline handlers invoked. -/
structure WriteEventOutcome where
  stream : OutputStream
  err : Option GoError
  handlersInvoked : Nat

/-- `(*OutputStream).WriteEvent` (pkg/executor, lines 98-122): fail with
`io.ErrClosedPipe` when closed; otherwise push the event into the channel
non-blockingly (dropping it when the buffer is full) and then run the
inline handlers synchronously, returning the first handler error. -/
def OutputStream.WriteEvent (s : OutputStream) (event : StreamEvent) :
    WriteEventOutcome :=
  if s.closed then ⟨s, some ErrClosedPipe, 0⟩
  else
    let events := if s.events.length < s.capacity
      then s.events ++ [event] else s.events
    let r := runHandlers event s.handlers
    ⟨{ s with events := events }, r.1, r.2⟩

/-- The event `(*OutputStream).Write` constructs from a payload `p`. -/
def OutputStream.mkWriteEvent (s : OutputStream) (now : Nat) (p : String) :
    StreamEvent :=
  { type := s.eventType, Data := p, Timestamp := now, ExitCode := 0,
    Error := none }

/-- Outcome of `Write`: updated stream, reported byte count, error, and
number of inline handlers invoked. -/
structure WriteOutcome where
  stream : OutputStream
  n : Nat
  err : Option GoError
  handlersInvoked : Nat

/-- `(*OutputStream).Write` (pkg/executor, lines 76-95): closed streams
fail with `io.ErrClosedPipe`; otherwise an event tagged with the stream's
event type is built and passed to `WriteEvent`; a `WriteEvent` error is
returned with 0 bytes written, success reports `len(p)`. -/
def OutputStream.Write (s : OutputStream) (now : Nat) (p : String) :
    WriteOutcome :=
  if s.closed then ⟨s, 0, some ErrClosedPipe, 0⟩
  else
    let event := s.mkWriteEvent now p
    let r := s.WriteEvent event
    match r.err with
    | some err => ⟨r.stream, 0, some err, r.handlersInvoked⟩
    | none => ⟨r.stream, p.length, none, r.handlersInvoked⟩

theorem runHandlers_all_ok (event : StreamEvent) (hs : List StreamHandler)
    (h : ∀ f ∈ hs, f event = none) :
    runHandlers event hs = (none, hs.length) := by
  induction hs with
  | nil => rfl
  | cons f rest ih =>
    have hf : f event = none := h f (by simp)
    simp [runHandlers, hf, ih (fun g hg => h g (by simp [hg]))]

theorem runHandlers_first_err (event : StreamEvent)
    (hs₁ hs₂ : List StreamHandler) (f : StreamHandler) (err : GoError)
    (hok : ∀ g ∈ hs₁, g event = none) (herr : f event = some err) :
    runHandlers event (hs₁ ++ f :: hs₂) = (some err, hs₁.length + 1) := by
  induction hs₁ with
  | nil => simp [runHandlers, herr]
  | cons g rest ih =>
    have hg : g event = none := hok g (by simp)
    have := ih (fun g' hg' => hok g' (by simp [hg']))
    simp [runHandlers, hg, this]

end Executor

/-! ### Claim C9: full channel drops, does not block or fail -/

open Executor in
/-- C9 counterexample.  An open `OutputStream` whose channel already holds
`bufferSize` events but which has a registered inline handler returning an
error: `WriteEvent` does *not* return success — it returns the handler's
error.  The claim's "does not fail … and the call returns success" is
therefore false as stated for every open full stream. -/
theorem C9_full_channel_counterexample :
    (let s : OutputStream :=
      { events := [⟨"stdout", "old", 0, 0, none⟩], capacity := 1,
        handlers := [fun _ => some (.base "handler failed")],
        closed := false, eventType := StreamStdout }
     let e : StreamEvent := ⟨"stdout", "new", 1, 0, none⟩
     s.closed = false ∧ s.events.length = s.capacity ∧
     (s.WriteEvent e).err = some (.base "handler failed") ∧
     (s.WriteEvent e).err ≠ none) := by
  refine ⟨rfl, rfl, rfl, by simp [OutputStream.WriteEvent, runHandlers]⟩

open Executor in
/-- C9 (amended).  For every open `OutputStream` whose channel already
holds `bufferSize` events, a further `WriteEvent` does not block and is
not failed by the full channel: the event is dropped from the channel
(the channel contents are unchanged) while the registered inline handlers
are still invoked in order, and the call returns success provided no
inline handler returns an error (a handler error is propagated exactly as
in the non-full case). -/
theorem C9_full_channel_drops (s : OutputStream) (e : StreamEvent)
    (hopen : s.closed = false) (hfull : s.events.length = s.capacity) :
    (s.WriteEvent e).stream.events = s.events ∧
    (s.WriteEvent e).handlersInvoked = (runHandlers e s.handlers).2 ∧
    ((∀ f ∈ s.handlers, f e = none) →
      (s.WriteEvent e).err = none ∧
      (s.WriteEvent e).handlersInvoked = s.handlers.length) := by
  have hnotlt : ¬ s.events.length < s.capacity := by omega
  refine ⟨?_, ?_, ?_⟩
  · simp [OutputStream.WriteEvent, hopen, hnotlt]
  · simp [OutputStream.WriteEvent, hopen, hnotlt]
  · intro hall
    have := runHandlers_all_ok e s.handlers hall
    simp [OutputStream.WriteEvent, hopen, hnotlt, this]

open Executor in
/-- Witness for the amended C9 at a concrete full stream with one
succeeding handler: the channel is unchanged, the handler is invoked, and
the call succeeds. -/
theorem C9_full_channel_drops_witness :
    (let s : OutputStream :=
      { events := [⟨"stdout", "old", 0, 0, none⟩], capacity := 1,
        handlers := [fun _ => none], closed := false,
        eventType := StreamStdout }
     let e : StreamEvent := ⟨"stdout", "new", 1, 0, none⟩
     (s.WriteEvent e).stream.events = [⟨"stdout", "old", 0, 0, none⟩] ∧
     (s.WriteEvent e).err = none ∧
     (s.WriteEvent e).handlersInvoked = 1) := by
  have h := C9_full_channel_drops
    { events := [⟨"stdout", "old", 0, 0, none⟩], capacity := 1,
      handlers := [fun _ => none], closed := false,
      eventType := StreamStdout }
    ⟨"stdout", "new", 1, 0, none⟩ rfl rfl
  have hall := h.2.2 (by intro f hf; simp at hf; subst hf; rfl)
  exact ⟨h.1, hall.1, hall.2⟩

/-! ### Claim C10: handler error stops the loop, channel not rolled back -/

open Executor in
/-- C10.  For every open `OutputStream`, if the inline handlers are
`hs₁ ++ f :: hs₂` where every handler in `hs₁` succeeds on the written
event and `f` returns an error, then `WriteEvent` invokes exactly the
handlers up to and including `f` (the rest are skipped) and returns `f`'s
error, while the event has already been pushed into the channel whenever
there was room (delivery is not rolled back); `Write` consequently
reports 0 bytes written with the same error. -/
theorem C10_handler_error (s : OutputStream) (now : Nat) (p : String)
    (hs₁ hs₂ : List StreamHandler) (f : StreamHandler) (err : GoError)
    (hopen : s.closed = false)
    (hh : s.handlers = hs₁ ++ f :: hs₂)
    (hok : ∀ g ∈ hs₁, g (s.mkWriteEvent now p) = none)
    (herr : f (s.mkWriteEvent now p) = some err) :
    (let ev := s.mkWriteEvent now p
     (s.WriteEvent ev).err = some err ∧
     (s.WriteEvent ev).handlersInvoked = hs₁.length + 1 ∧
     (s.WriteEvent ev).stream.events =
       (if s.events.length < s.capacity then s.events ++ [ev]
        else s.events)) ∧
    (s.Write now p).n = 0 ∧
    (s.Write now p).err = some err ∧
    (s.Write now p).handlersInvoked = hs₁.length + 1 := by
  have hrun := runHandlers_first_err (s.mkWriteEvent now p) hs₁ hs₂ f err
    hok herr
  have hwe : (s.WriteEvent (s.mkWriteEvent now p)).err = some err ∧
      (s.WriteEvent (s.mkWriteEvent now p)).handlersInvoked =
        hs₁.length + 1 := by
    simp [OutputStream.WriteEvent, hopen, hh, hrun]
  refine ⟨⟨hwe.1, hwe.2, ?_⟩, ?_, ?_, ?_⟩
  · simp only [OutputStream.WriteEvent, hopen, Bool.false_eq_true,
      if_false]
  · simp [OutputStream.Write, hopen, OutputStream.WriteEvent, hh, hrun]
  · simp [OutputStream.Write, hopen, OutputStream.WriteEvent, hh, hrun]
  · simp [OutputStream.Write, hopen, OutputStream.WriteEvent, hh, hrun]

open Executor in
/-- Witness for C10: a concrete open stream with room in the channel and
handlers `[ok, fail, neverReached]`; `Write` reports 0 bytes with the
failing handler's error, two handlers were invoked, and the event is in
the channel. -/
theorem C10_handler_error_witness :
    (let s : OutputStream :=
      { events := [], capacity := 4,
        handlers := [fun _ => none, fun _ => some (.base "h2 failed"),
          fun _ => some (.base "h3 never reached")],
        closed := false, eventType := StreamStdout }
     (s.Write 5 "data").n = 0 ∧
     (s.Write 5 "data").err = some (.base "h2 failed") ∧
     (s.Write 5 "data").handlersInvoked = 2 ∧
     (s.WriteEvent (s.mkWriteEvent 5 "data")).stream.events =
       [s.mkWriteEvent 5 "data"]) := by
  have h := C10_handler_error
    { events := [], capacity := 4,
      handlers := [fun _ => none, fun _ => some (.base "h2 failed"),
        fun _ => some (.base "h3 never reached")],
      closed := false, eventType := StreamStdout }
    5 "data" [fun _ => none] [fun _ => some (.base "h3 never reached")]
    (fun _ => some (.base "h2 failed")) (.base "h2 failed")
    rfl rfl (by intro g hg; simp at hg; subst hg; rfl) rfl
  refine ⟨h.2.1, h.2.2.1, h.2.2.2, ?_⟩
  have := h.1.2.2
  simpa using this

namespace Executor

/-! ## pkg/executor result model -/

/-- `executor.Artifact`. -/
structure Artifact where
  Name : String
  Path : String
  MIMEType : String
  Size : Int
  Data : Option String
deriving Repr, DecidableEq

/-- `executor.ExecutionResult`.  `Duration` is in nanoseconds; `Metadata`
(`map[string]any` in the source, never populated by the embedded code) is
a string map. -/
structure ExecutionResult where
  ExitCode : Int
  Stdout : String
  Stderr : String
  Duration : Nat
  Language : String
  Artifacts : List Artifact
  Error : Option GoError
  Metadata : List (String × String)
deriving Repr, DecidableEq

/-- `executor.CommandResult`. -/
structure CommandResult where
  ExitCode : Int
  Stdout : String
  Stderr : String
  Duration : Nat
deriving Repr, DecidableEq

end Executor

namespace Langdetect

/-! ## pkg/langdetect runtime catalog

`DefaultRuntimes` is a Go map literal; it is embedded as an association
list in the textual order of the source.  Go map iteration order is
arbitrary, but every lookup considered here is by key, and the keys are
distinct (`DefaultRuntimes_keys_nodup` below), so the embedding order is
irrelevant to the claims. -/

/-- `langdetect.RuntimeInfo`. -/
structure RuntimeInfo where
  Language : String
  Aliases : List String
  Runtime : String
  FileExt : String
  RunCommand : List String
  CompileCmd : Option (List String)
  DockerImage : String
  REPLMode : Bool
deriving Repr, DecidableEq

/-- `langdetect.DefaultRuntimes`, the static runtime catalog. -/
def DefaultRuntimes : List (String × RuntimeInfo) :=
  [("Python",
    { Language := "Python", Aliases := ["python", "python3", "py"],
      Runtime := "python3", FileExt := ".py", RunCommand := ["python3"],
      CompileCmd := none, DockerImage := "python:3.12-slim",
      REPLMode := false }),
   ("Go",
    { Language := "Go", Aliases := ["go", "golang"], Runtime := "go",
      FileExt := ".go", RunCommand := ["go", "run"], CompileCmd := none,
      DockerImage := "golang:1.25-alpine", REPLMode := false }),
   ("JavaScript",
    { Language := "JavaScript",
      Aliases := ["javascript", "js", "node", "nodejs"], Runtime := "node",
      FileExt := ".js", RunCommand := ["node"], CompileCmd := none,
      DockerImage := "node:22-slim", REPLMode := false }),
   ("TypeScript",
    { Language := "TypeScript", Aliases := ["typescript", "ts"],
      Runtime := "ts-node", FileExt := ".ts",
      RunCommand := ["npx", "ts-node"], CompileCmd := none,
      DockerImage := "node:22-slim", REPLMode := false }),
   ("Rust",
    { Language := "Rust", Aliases := ["rust", "rs"], Runtime := "rustc",
      FileExt := ".rs", RunCommand := ["/tmp/main"],
      CompileCmd := some ["rustc", "-o", "/tmp/main"],
      DockerImage := "rust:1.75-slim", REPLMode := false }),
   ("Java",
    { Language := "Java", Aliases := ["java"], Runtime := "java",
      FileExt := ".java", RunCommand := ["java"],
      CompileCmd := some ["javac"],
      DockerImage := "eclipse-temurin:21-jdk", REPLMode := false }),
   ("C",
    { Language := "C", Aliases := ["c"], Runtime := "gcc", FileExt := ".c",
      RunCommand := ["/tmp/main"],
      CompileCmd := some ["gcc", "-o", "/tmp/main"],
      DockerImage := "gcc:14", REPLMode := false }),
   ("C++",
    { Language := "C++", Aliases := ["cpp", "c++", "cxx"], Runtime := "g++",
      FileExt := ".cpp", RunCommand := ["/tmp/main"],
      CompileCmd := some ["g++", "-o", "/tmp/main"],
      DockerImage := "gcc:14", REPLMode := false }),
   ("Ruby",
    { Language := "Ruby", Aliases := ["ruby", "rb"], Runtime := "ruby",
      FileExt := ".rb", RunCommand := ["ruby"], CompileCmd := none,
      DockerImage := "ruby:3.3-slim", REPLMode := false }),
   ("PHP",
    { Language := "PHP", Aliases := ["php"], Runtime := "php",
      FileExt := ".php", RunCommand := ["php"], CompileCmd := none,
      DockerImage := "php:8.3-cli", REPLMode := false }),
   ("Shell",
    { Language := "Shell", Aliases := ["shell", "bash", "sh"],
      Runtime := "bash", FileExt := ".sh", RunCommand := ["bash"],
      CompileCmd := none, DockerImage := "bash:5", REPLMode := false }),
   ("R",
    { Language := "R", Aliases := ["r"], Runtime := "Rscript",
      FileExt := ".R", RunCommand := ["Rscript"], CompileCmd := none,
      DockerImage := "r-base:4.3.2", REPLMode := false }),
   ("Kotlin",
    { Language := "Kotlin", Aliases := ["kotlin", "kt"],
      Runtime := "kotlin", FileExt := ".kt", RunCommand := ["kotlin"],
      CompileCmd := none, DockerImage := "zenika/kotlin:1.9",
      REPLMode := false }),
   ("Swift",
    { Language := "Swift", Aliases := ["swift"], Runtime := "swift",
      FileExt := ".swift", RunCommand := ["swift"], CompileCmd := none,
      DockerImage := "swift:5.9", REPLMode := false }),
   ("Scala",
    { Language := "Scala", Aliases := ["scala"], Runtime := "scala",
      FileExt := ".scala", RunCommand := ["scala"], CompileCmd := none,
      DockerImage :=
        "sbtscala/scala-sbt:eclipse-temurin-21.0.1_12_1.9.7_3.3.1",
      REPLMode := false }),
   ("Perl",
    { Language := "Perl", Aliases := ["perl", "pl"], Runtime := "perl",
      FileExt := ".pl", RunCommand := ["perl"], CompileCmd := none,
      DockerImage := "perl:5.38", REPLMode := false }),
   ("Lua",
    { Language := "Lua", Aliases := ["lua"], Runtime := "lua",
      FileExt := ".lua", RunCommand := ["lua"], CompileCmd := none,
      DockerImage := "nickblah/lua:5.4", REPLMode := false }),
   ("Haskell",
    { Language := "Haskell", Aliases := ["haskell", "hs"],
      Runtime := "runhaskell", FileExt := ".hs",
      RunCommand := ["runhaskell"], CompileCmd := none,
      DockerImage := "haskell:9.4", REPLMode := false }),
   ("Elixir",
    { Language := "Elixir", Aliases := ["elixir", "ex"],
      Runtime := "elixir", FileExt := ".exs", RunCommand := ["elixir"],
      CompileCmd := none, DockerImage := "elixir:1.16",
      REPLMode := false }),
   ("Clojure",
    { Language := "Clojure", Aliases := ["clojure", "clj"],
      Runtime := "clojure", FileExt := ".clj", RunCommand := ["clojure"],
      CompileCmd := none, DockerImage := "clojure:tools-deps",
      REPLMode := false }),
   ("SQL",
    { Language := "SQL", Aliases := ["sql"], Runtime := "sqlite3",
      FileExt := ".sql", RunCommand := ["sqlite3", ":memory:"],
      CompileCmd := none, DockerImage := "keinos/sqlite3:latest",
      REPLMode := false })]

/-- The `init`-built alias map (pkg/langdetect, lines 234-244): for every
catalog entry, insert the lowercased canonical name and every lowercased
alias. -/
def aliasMap : List (String × RuntimeInfo) :=
  DefaultRuntimes.foldl (fun m p =>
    p.2.Aliases.foldl (fun m a => mapInsert m (goToLower a) p.2)
      (mapInsert m (goToLower p.2.Language) p.2)) []

/-- `langdetect.GetRuntimeInfo`: exact canonical match first, then the
lowercased alias map. -/
def GetRuntimeInfo (language : String) : Option RuntimeInfo :=
  match assocLookup DefaultRuntimes language with
  | some info => some info
  | none => assocLookup aliasMap (goToLower language)

/-- The canonical names of the catalog are pairwise distinct, so lookups
by key are independent of Go's map iteration order. -/
theorem DefaultRuntimes_keys_nodup : (DefaultRuntimes.map Prod.fst).Nodup := by
  decide

/-- No canonical name collides (case-insensitively) with an alias of a
different descriptor: whenever a catalog key lowercases to the same string
as some entry's alias, the two entries carry the same descriptor. -/
theorem DefaultRuntimes_no_cross_collision :
    ∀ p ∈ DefaultRuntimes, ∀ q ∈ DefaultRuntimes, ∀ a ∈ q.2.Aliases,
      goToLower p.1 = goToLower a → p.2 = q.2 := by
  decide

/-- Every lowercased alias (and lowercased canonical name) is bound to its
own descriptor in the `init`-built alias map. -/
theorem aliasMap_complete :
    ∀ q ∈ DefaultRuntimes,
      (∀ a ∈ q.2.Aliases, assocLookup aliasMap (goToLower a) = some q.2) ∧
      assocLookup aliasMap (goToLower q.2.Language) = some q.2 := by
  decide

/-! ## pkg/langdetect detector (filename entry point)

`DetectFromFilename` consults the detector's custom extension mappings,
then the go-enry classifier.  go-enry is a third-party library outside
this repository; its two lookups are taken as an explicit model argument
(`EnryModel`), and the concrete instances used in witnesses are modelled
from the spec and the repository's own tests.  `float64` confidences are
exact rationals. -/

/-- Model of Go `filepath.Ext`: the suffix beginning at the final dot in
the final path element, or empty when there is no dot. -/
def filepathExtLoop : List Char → List Char → String
  | [], _ => ""
  | c :: rest, acc =>
    if c = '/' then ""
    else if c = '.' then String.mk ('.' :: acc)
    else filepathExtLoop rest (c :: acc)

/-- `filepath.Ext`. -/
def goFilepathExt (path : String) : String :=
  filepathExtLoop path.data.reverse []

/-- The go-enry lookups used by the detector, as an abstract model of the
third-party library: each returns a `(language, safe)` pair exactly as the
Go API does. -/
structure EnryModel where
  GetLanguageByFilename : String → String × Bool
  GetLanguageByExtension : String → String × Bool
  GetLanguageByShebang : String → String × Bool
  GetLanguages : String → String → List String
  GetLanguage : String → String → String

/-- `langdetect.DetectResult`; `Confidence` is the float64 field as an
exact rational. -/
structure DetectResult where
  Language : String
  Confidence : ℚ
  Method : String
deriving Repr, DecidableEq

/-- `langdetect.Detector`: only the custom extension mappings. -/
structure Detector where
  customMappings : List (String × String)

/-- `langdetect.New`: a detector with empty custom mappings. -/
def New : Detector := { customMappings := [] }

/-- `(*Detector).DetectFromFilename` (pkg/langdetect, lines 362-380):
custom extension mappings give confidence 1.0 / method `custom`; an enry
by-filename hit gives 1.0 / `filename`; an enry by-extension hit gives
0.95 / `extension`; otherwise the unknown result. -/
def Detector.DetectFromFilename (E : EnryModel) (d : Detector)
    (filename : String) : DetectResult :=
  let ext := goFilepathExt filename
  match assocLookup d.customMappings ext with
  | some lang => ⟨lang, 1, "custom"⟩
  | none =>
    let byName := E.GetLanguageByFilename filename
    if byName.2 ∧ byName.1 ≠ "" then ⟨byName.1, 1, "filename"⟩
    else
      let byExt := E.GetLanguageByExtension filename
      if byExt.2 then ⟨byExt.1, 0.95, "extension"⟩
      else ⟨"", 0, "unknown"⟩

/-! ## A model of Go `regexp` for the detector's heuristic patterns

`detectByPatterns` evaluates a fixed table of regular expressions with
`regexp.MatchString`.  The Go `regexp` package is outside this
repository; the fragment of RE2 its patterns use — literals, escapes
(`\w \s \b` and escaped metacharacters), character classes with ranges
and negation, groups, alternation, the `* + ?` quantifiers, `.`, the
multiline `^` anchor and the leading `(?m)`/`(?mi)` flag groups — is
modelled here by an executable parser and backtracking matcher (fuelled;
the fuel is generous enough for every concrete evaluation below, and
`MatchString` is pure existence of a match, so greediness is
irrelevant).  Case folding under `(?i)` is applied to literal characters
(the case-insensitive patterns in the table contain no classes). -/

/-- An item of a character class: a single character or a range. -/
inductive ClsItem where
  | single (c : Char)
  | range (lo hi : Char)
deriving Repr, DecidableEq

/-- The regular-expression fragment used by the detector's patterns. -/
inductive Rx where
  | emptyStr
  | char (c : Char)
  | anyChar
  | cls (neg : Bool) (items : List ClsItem)
  | wordChar
  | space
  | digit
  | startAnchor
  | wordBoundary
  | seq (a b : Rx)
  | alt (a b : Rx)
  | star (a : Rx)
  | plus (a : Rx)
  | opt (a : Rx)
deriving Repr, DecidableEq

/-- Regex compile flags: `m` (multiline `^`) and `i` (case folding). -/
structure RxFlags where
  m : Bool
  i : Bool
deriving Repr, DecidableEq

/-- `\w` of RE2. -/
def isWordChar (c : Char) : Bool :=
  ('a' ≤ c && c ≤ 'z') || ('A' ≤ c && c ≤ 'Z') ||
  ('0' ≤ c && c ≤ '9') || c == '_'

/-- `\s` of RE2: `[\t\n\f\r ]`. -/
def isSpaceChar (c : Char) : Bool :=
  c == ' ' || c == '\t' || c == '\n' || c == '\x0c' || c == '\r'

/-- `\d` of RE2. -/
def isDigitChar (c : Char) : Bool :=
  '0' ≤ c && c ≤ '9'

/-- The regex node denoted by an escape `\c` outside a class. -/
def escapeRx (c : Char) : Rx :=
  if c = 'w' then .wordChar
  else if c = 's' then .space
  else if c = 'd' then .digit
  else if c = 'b' then .wordBoundary
  else .char c

/-- Parse the items of a character class (after `[` and an optional
`^`), up to the closing `]`. -/
def parseClsItems : Nat → List Char → Option (List ClsItem × List Char)
  | 0, _ => none
  | _ + 1, [] => none
  | _ + 1, ']' :: rest => some ([], rest)
  | fuel + 1, '\\' :: c :: rest =>
    match parseClsItems fuel rest with
    | some (items, rest2) => some (.single c :: items, rest2)
    | none => none
  | fuel + 1, c :: '-' :: d :: rest =>
    if d = ']' then
      match parseClsItems fuel ('-' :: d :: rest) with
      | some (items, rest2) => some (.single c :: items, rest2)
      | none => none
    else
      match parseClsItems fuel rest with
      | some (items, rest2) => some (.range c d :: items, rest2)
      | none => none
  | fuel + 1, c :: rest =>
    match parseClsItems fuel rest with
    | some (items, rest2) => some (.single c :: items, rest2)
    | none => none

mutual

/-- Parse an alternation `a|b|…`. -/
def parseAlt : Nat → List Char → Option (Rx × List Char)
  | 0, _ => none
  | fuel + 1, s =>
    match parseSeq fuel s with
    | none => none
    | some (r, rest) =>
      match rest with
      | '|' :: rest2 =>
        match parseAlt fuel rest2 with
        | none => none
        | some (r2, rest3) => some (.alt r r2, rest3)
      | _ => some (r, rest)

/-- Parse a concatenation of quantified atoms, stopping at `|`, `)` or
the end of the pattern. -/
def parseSeq : Nat → List Char → Option (Rx × List Char)
  | 0, _ => none
  | fuel + 1, s =>
    match s with
    | [] => some (.emptyStr, [])
    | ')' :: _ => some (.emptyStr, s)
    | '|' :: _ => some (.emptyStr, s)
    | _ =>
      match parseQuant fuel s with
      | none => none
      | some (r, rest) =>
        match parseSeq fuel rest with
        | none => none
        | some (r2, rest2) => some (.seq r r2, rest2)

/-- Parse one atom with an optional `*`, `+` or `?` quantifier. -/
def parseQuant : Nat → List Char → Option (Rx × List Char)
  | 0, _ => none
  | fuel + 1, s =>
    match parseAtom fuel s with
    | none => none
    | some (r, rest) =>
      match rest with
      | '*' :: rest2 => some (.star r, rest2)
      | '+' :: rest2 => some (.plus r, rest2)
      | '?' :: rest2 => some (.opt r, rest2)
      | _ => some (r, rest)

/-- Parse one atom: a group, a class, an escape, `.`, `^` or a literal
character (`{` and `}` not opening a repetition are literals in RE2). -/
def parseAtom : Nat → List Char → Option (Rx × List Char)
  | 0, _ => none
  | _ + 1, [] => none
  | fuel + 1, '(' :: rest =>
    match parseAlt fuel rest with
    | some (r, ')' :: rest2) => some (r, rest2)
    | _ => none
  | fuel + 1, '[' :: '^' :: rest =>
    match parseClsItems fuel rest with
    | some (items, rest2) => some (.cls true items, rest2)
    | none => none
  | fuel + 1, '[' :: rest =>
    match parseClsItems fuel rest with
    | some (items, rest2) => some (.cls false items, rest2)
    | none => none
  | _ + 1, '\\' :: c :: rest => some (escapeRx c, rest)
  | _ + 1, '.' :: rest => some (.anyChar, rest)
  | _ + 1, '^' :: rest => some (.startAnchor, rest)
  | _ + 1, c :: rest => some (.char c, rest)

end

/-- Parse the optional leading `(?flags)` group. -/
def parseFlags : List Char → RxFlags × List Char
  | '(' :: '?' :: rest =>
    let letters := rest.takeWhile (fun c => c ≠ ')')
    let remainder := rest.dropWhile (fun c => c ≠ ')')
    match remainder with
    | ')' :: rest2 =>
      if letters.all (fun c => c = 'm' || c = 'i') then
        (⟨letters.contains 'm', letters.contains 'i'⟩, rest2)
      else (⟨false, false⟩, '(' :: '?' :: rest)
    | _ => (⟨false, false⟩, '(' :: '?' :: rest)
  | s => (⟨false, false⟩, s)

/-- Parse a whole pattern (flags plus expression, consuming all input). -/
def parsePattern (pattern : String) : Option (RxFlags × Rx) :=
  let (flags, body) := parseFlags pattern.data
  match parseAlt (2 * body.length + 16) body with
  | some (r, []) => some (flags, r)
  | _ => none

/-- Character comparison under the `i` flag. -/
def chEq (f : RxFlags) (a b : Char) : Bool :=
  if f.i then goToLowerChar a == goToLowerChar b else a == b

/-- Does a class item match a character? -/
def clsItemMatch (x : Char) : ClsItem → Bool
  | .single c => c == x
  | .range lo hi => lo ≤ x && x ≤ hi

/-- Size of a regex, to compute a sufficient matcher fuel. -/
def rxSize : Rx → Nat
  | .seq a b => rxSize a + rxSize b + 1
  | .alt a b => rxSize a + rxSize b + 1
  | .star a => rxSize a + 1
  | .plus a => rxSize a + 1
  | .opt a => rxSize a + 1
  | _ => 1

/-- Backtracking matcher in continuation-passing style.  `prev` is the
character before the current position (for `^` and `\b`); the `k`
continuation receives the position after the node's match.  The `star`
case only iterates when the body consumed input, so the fuel below is
always sufficient. -/
def matchRx (f : RxFlags) : Nat → Rx → Option Char → List Char →
    (Option Char → List Char → Bool) → Bool
  | 0, _, _, _, _ => false
  | fuel + 1, r, prev, s, k =>
    match r with
    | .emptyStr => k prev s
    | .char c =>
      match s with
      | [] => false
      | x :: rest => chEq f c x && k (some x) rest
    | .anyChar =>
      match s with
      | [] => false
      | x :: rest => x != '\n' && k (some x) rest
    | .cls neg items =>
      match s with
      | [] => false
      | x :: rest => (items.any (clsItemMatch x) != neg) && k (some x) rest
    | .wordChar =>
      match s with
      | [] => false
      | x :: rest => isWordChar x && k (some x) rest
    | .space =>
      match s with
      | [] => false
      | x :: rest => isSpaceChar x && k (some x) rest
    | .digit =>
      match s with
      | [] => false
      | x :: rest => isDigitChar x && k (some x) rest
    | .startAnchor =>
      (match prev with
       | none => true
       | some c => f.m && c == '\n') && k prev s
    | .wordBoundary =>
      let prevW := match prev with
        | none => false
        | some c => isWordChar c
      let nextW := match s with
        | [] => false
        | x :: _ => isWordChar x
      (prevW != nextW) && k prev s
    | .seq a b =>
      matchRx f fuel a prev s (fun p2 s2 => matchRx f fuel b p2 s2 k)
    | .alt a b =>
      matchRx f fuel a prev s k || matchRx f fuel b prev s k
    | .opt a => matchRx f fuel a prev s k || k prev s
    | .plus a =>
      matchRx f fuel a prev s (fun p2 s2 =>
        matchRx f fuel (.star a) p2 s2 k)
    | .star a =>
      matchRx f fuel a prev s (fun p2 s2 =>
        if s2.length < s.length then matchRx f fuel (.star a) p2 s2 k
        else k p2 s2) || k prev s

/-- Try a match at the current position and at every later position. -/
def searchRx (f : RxFlags) (r : Rx) (fuel : Nat) :
    Option Char → List Char → Bool
  | prev, [] => matchRx f fuel r prev [] (fun _ _ => true)
  | prev, x :: rest =>
    matchRx f fuel r prev (x :: rest) (fun _ _ => true) ||
      searchRx f r fuel (some x) rest

/-- Model of Go `regexp.MatchString(pattern, code)`: false on a pattern
that does not parse (Go reports an error and `false`), otherwise an
unanchored search. -/
def goMatchString (pattern code : String) : Bool :=
  match parsePattern pattern with
  | none => false
  | some (flags, r) =>
    searchRx flags r ((rxSize r + 4) * (code.data.length + 4) * 4)
      none code.data

/-- The `patterns` map literal of `detectByPatterns` (pkg/langdetect,
lines 120-320), as an association list in the source's textual order.
Go map iteration order is arbitrary: the detection functions below take
the iteration order as an explicit argument (a permutation of this
list).  In the string literals a backslash of the Go raw string is
`\\` and literal braces are written with `\x7b`/`\x7d` escapes. -/
def patternsList : List (String × List String) :=
  [("Python",
    ["(?m)^import\\s+\\w+",
     "(?m)^from\\s+\\w+\\s+import",
     "(?m)^def\\s+\\w+\\s*\\(",
     "(?m)^class\\s+\\w+.*:",
     "(?m)^\\s*print\\s*\\(",
     "exec\\s*\\(",
     "range\\s*\\(",
     "len\\s*\\(",
     "str\\s*\\(",
     "int\\s*\\(",
     "list\\s*\\(",
     "dict\\s*\\(",
     "\\.append\\s*\\(",
     "\\.join\\s*\\(",
     "time\\.sleep",
     "for\\s+\\w+\\s+in\\s+",
     "if\\s+__name__\\s*==",
     "lambda\\s+\\w*:",
     "\\[\\s*\\w+\\s+for\\s+\\w+\\s+in"]),
   ("Go",
    ["(?m)^package\\s+\\w+",
     "\\bpackage\\s+main\\b",
     "(?m)^import\\s*\\(",
     "(?m)^func\\s+\\w*\\s*\\(",
     "\\bfunc\\s+main\\s*\\(",
     "(?m)^type\\s+\\w+\\s+(struct|interface)",
     ":=",
     "fmt\\.Print",
     "fmt\\.Sprintf",
     "fmt\\.Errorf",
     "errors\\.New",
     "make\\s*\\(\\s*(map|chan|\\[\\])",
     "go\\s+func\\s*\\(",
     "<-\\s*\\w+",
     "defer\\s+",
     "panic\\s*\\(",
     "recover\\s*\\(",
     "range\\s+\\w+",
     "\\[\\]byte",
     "\\[\\]string",
     "map\\[string\\]",
     "interface\\\x7b\\\x7d",
     "struct\\s*\\\x7b"]),
   ("JavaScript",
    ["(?m)^const\\s+\\w+\\s*=",
     "(?m)^let\\s+\\w+\\s*=",
     "(?m)^var\\s+\\w+\\s*=",
     "(?m)^function\\s+\\w+\\s*\\(",
     "=>\\s*[\x7b\\(]",
     "console\\.log\\s*\\(",
     "console\\.error\\s*\\(",
     "console\\.warn\\s*\\(",
     "require\\s*\\(",
     "module\\.exports",
     "exports\\.",
     "document\\.",
     "window\\.",
     "async\\s+function",
     "await\\s+",
     "\\.then\\s*\\(",
     "\\.catch\\s*\\(",
     "JSON\\.parse",
     "JSON\\.stringify",
     "Array\\.",
     "Object\\.",
     "Promise\\.",
     "new\\s+Promise",
     "setTimeout\\s*\\(",
     "setInterval\\s*\\("]),
   ("TypeScript",
    ["(?m)^interface\\s+\\w+",
     "(?m)^type\\s+\\w+\\s*=",
     ":\\s*(string|number|boolean|any)\\b",
     "<[A-Z]\\w*>"]),
   ("Rust",
    ["(?m)^fn\\s+\\w+",
     "\\bfn\\s+main\\s*\\(",
     "(?m)^use\\s+\\w+",
     "(?m)^mod\\s+\\w+",
     "(?m)^struct\\s+\\w+",
     "(?m)^impl\\s+",
     "(?m)^let\\s+mut\\s+",
     "(?m)^pub\\s+(fn|struct|enum|mod)",
     "println!\\s*\\(",
     "print!\\s*\\(",
     "eprintln!\\s*\\(",
     "format!\\s*\\(",
     "vec!\\s*\\[",
     "panic!\\s*\\(",
     "->\\s*(i32|i64|u32|u64|f32|f64|bool|String|&str|\\(\\))",
     "&mut\\s+\\w+",
     "&str",
     "::new\\s*\\(",
     "\\.unwrap\\s*\\(",
     "\\.expect\\s*\\(",
     "Option<",
     "Result<",
     "Some\\s*\\(",
     "None\\b",
     "Ok\\s*\\(",
     "Err\\s*\\("]),
   ("Java",
    ["(?m)^public\\s+class\\s+\\w+",
     "(?m)^import\\s+java\\.",
     "(?m)^package\\s+\\w+(\\.\\w+)*;",
     "System\\.out\\.print",
     "public\\s+static\\s+void\\s+main"]),
   ("Ruby",
    ["(?m)^require\\s+['\"]",
     "(?m)^def\\s+\\w+",
     "(?m)^class\\s+\\w+",
     "(?m)^module\\s+\\w+",
     "\\.each\\s+do\\s*\\|",
     "puts\\s+"]),
   ("PHP",
    ["(?m)^<\\?php",
     "\\$\\w+\\s*=",
     "(?m)^function\\s+\\w+\\s*\\(",
     "echo\\s+",
     "->\\w+\\("]),
   ("C",
    ["(?m)^#include\\s*<",
     "(?m)^int\\s+main\\s*\\(",
     "printf\\s*\\(",
     "(?m)^(void|int|char|float|double)\\s+\\w+\\s*\\("]),
   ("C++",
    ["(?m)^#include\\s*<iostream>",
     "std::",
     "cout\\s*<<",
     "(?m)^class\\s+\\w+\\s*[:\x7b]",
     "(?m)^namespace\\s+\\w+"]),
   ("C#",
    ["(?m)^using\\s+System",
     "(?m)^namespace\\s+\\w+",
     "(?m)^class\\s+\\w+",
     "Console\\.(Write|Read)",
     "(?m)^public\\s+(class|interface|enum)"]),
   ("Shell",
    ["(?m)^#!/bin/(ba)?sh",
     "(?m)^\\s*if\\s+\\[\\s+",
     "(?m)^\\s*for\\s+\\w+\\s+in\\s+",
     "\\$\\\x7b?\\w+\\\x7d?",
     "(?m)^\\s*echo\\s+"]),
   ("SQL",
    ["(?mi)^SELECT\\s+",
     "(?mi)^INSERT\\s+INTO",
     "(?mi)^UPDATE\\s+\\w+\\s+SET",
     "(?mi)^CREATE\\s+TABLE",
     "(?mi)^DROP\\s+TABLE"]),
   ("R",
    ["(?m)^library\\s*\\(",
     "<-\\s*",
     "(?m)^function\\s*\\(",
     "data\\.frame\\s*\\(",
     "ggplot\\s*\\("]),
   ("Kotlin",
    ["(?m)^fun\\s+\\w+",
     "(?m)^val\\s+\\w+",
     "(?m)^var\\s+\\w+",
     "(?m)^class\\s+\\w+",
     "println\\s*\\("]),
   ("Swift",
    ["(?m)^import\\s+(Foundation|UIKit|SwiftUI|Cocoa|Darwin)",
     "(?m)^func\\s+\\w+\\s*\\([^)]*\\)\\s*(->|\x7b)",
     "(?m)^let\\s+\\w+\\s*:\\s*\\w+",
     "(?m)^var\\s+\\w+\\s*:\\s*\\w+",
     "(?m)^class\\s+\\w+\\s*:\\s*\\w+",
     "(?m)^struct\\s+\\w+",
     "(?m)^enum\\s+\\w+",
     "(?m)^protocol\\s+\\w+",
     "guard\\s+let",
     "if\\s+let",
     "@IBOutlet",
     "@IBAction",
     "override\\s+func"]),
   ("Scala",
    ["(?m)^object\\s+\\w+",
     "(?m)^def\\s+\\w+",
     "(?m)^val\\s+\\w+",
     "(?m)^var\\s+\\w+",
     "println\\s*\\("])]

/-- The `scores` map of `detectByPatterns` (lines 322-330) for a given
iteration order of the `patterns` map: each language that matches at
least one of its patterns, with its match count. -/
def scoresOf (order : List (String × List String)) (code : String) :
    List (String × Nat) :=
  order.filterMap (fun p =>
    let score := (p.2.filter (fun pattern => goMatchString pattern code)).length
    if score > 0 then some (p.1, score) else none)

/-- The best-score loop of `detectByPatterns` (lines 332-340): a fold
starting from `("", 0)` that replaces the best on a strictly greater
score, so the first entry of the iteration attaining the maximum wins. -/
def bestPick (scores : List (String × Nat)) : String × Nat :=
  scores.foldl (fun best p => if p.2 > best.2 then p else best) ("", 0)

/-- The result-assembly tail of `detectByPatterns` (lines 342-353):
require at least one match and clamp `score/5` into `[0.2, 0.8]`. -/
def heuristicResult (best : String × Nat) : Option DetectResult :=
  if 1 ≤ best.2 then
    let confidence : ℚ := (best.2 : ℚ) / 5
    let confidence := if confidence > 0.8 then (0.8 : ℚ) else confidence
    let confidence := if confidence < 0.2 then (0.2 : ℚ) else confidence
    some ⟨best.1, confidence, "heuristic"⟩
  else none

/-- `(*Detector).detectByPatterns` (pkg/langdetect, lines 119-354), with
the Go-map iteration order as an explicit argument. -/
def Detector.detectByPatterns (order : List (String × List String))
    (code : String) : Option DetectResult :=
  heuristicResult (bestPick (scoresOf order code))

/-- `langdetect.DetectOptions`. -/
structure DetectOptions where
  Filename : String
  UseContent : Bool
  UseShebang : Bool
  UseHeuristics : Bool
deriving Repr, DecidableEq

/-- `langdetect.DefaultDetectOptions`. -/
def DefaultDetectOptions : DetectOptions :=
  { Filename := "", UseContent := true, UseShebang := true,
    UseHeuristics := true }

/-- Model of Go `strings.TrimSpace` (ASCII whitespace). -/
def goTrimSpace (s : String) : String :=
  String.mk ((s.data.dropWhile isSpaceChar).reverse.dropWhile
    isSpaceChar).reverse

/-- `(*Detector).Detect` (pkg/langdetect, lines 62-116): the four-stage
pipeline — filename/extension, shebang, content classifier, heuristic
patterns — with the enry library as a model argument and the heuristic
patterns-map iteration order as an explicit argument.  The receiver's
custom mappings are not consulted by `Detect` in the source. -/
def Detector.Detect (E : EnryModel) (order : List (String × List String))
    (_d : Detector) (code : String) (opts? : Option DetectOptions) :
    DetectResult :=
  let opts := match opts? with
    | none => DefaultDetectOptions
    | some o => o
  let s1 : Option DetectResult :=
    if opts.Filename != "" then
      let byName := E.GetLanguageByFilename opts.Filename
      if byName.2 && byName.1 != "" then some ⟨byName.1, 1, "filename"⟩
      else
        let byExt := E.GetLanguageByExtension opts.Filename
        if byExt.2 && byExt.1 != "" then some ⟨byExt.1, 0.95, "extension"⟩
        else none
    else none
  match s1 with
  | some r => r
  | none =>
    let s2 : Option DetectResult :=
      if opts.UseShebang && (goTrimSpace code).startsWith "#!" then
        let sb := E.GetLanguageByShebang code
        if sb.2 && sb.1 != "" then some ⟨sb.1, 0.95, "shebang"⟩ else none
      else none
    match s2 with
    | some r => r
    | none =>
      let s3 : Option DetectResult :=
        if opts.UseContent then
          let filename := if opts.Filename = "" then "code"
            else opts.Filename
          let languages := E.GetLanguages filename code
          match languages with
          | [l] => some ⟨l, 0.9, "content"⟩
          | _ :: _ :: _ =>
            let lang := E.GetLanguage filename code
            if lang != "" then some ⟨lang, 0.8, "classifier"⟩ else none
          | [] => none
        else none
      match s3 with
      | some r => r
      | none =>
        let s4 : Option DetectResult :=
          if opts.UseHeuristics then Detector.detectByPatterns order code
          else none
        match s4 with
        | some r => r
        | none => ⟨"", 0, "unknown"⟩

/-- Modelled from the spec: a go-enry model on which every lookup misses
(used with inputs none of enry's tables know, such as the tiny snippets
of the heuristic-stage witnesses with the content stage disabled). -/
def enryNone : EnryModel :=
  { GetLanguageByFilename := fun _ => ("", false)
    GetLanguageByExtension := fun _ => ("", false)
    GetLanguageByShebang := fun _ => ("", false)
    GetLanguages := fun _ _ => []
    GetLanguage := fun _ _ => "" }

/-- Modelled from the spec: go-enry's behaviour on `main.py` (go-enry is a
third-party dependency, not part of this repository).  Per §4.3 a
filename hit requires the whole name to be a known filename (`Makefile`,
`Dockerfile`, …), which `main.py` is not, while the `.py` extension
resolves to Python — matching the repository's own test
`TestDetector_DetectFromFilename` which expects `main.py ↦ Python`. -/
def enryMainPy : EnryModel :=
  { GetLanguageByFilename := fun _ => ("", false)
    GetLanguageByExtension := fun f =>
      if goFilepathExt f = ".py" then ("Python", true) else ("", false)
    GetLanguageByShebang := fun _ => ("", false)
    GetLanguages := fun _ _ => []
    GetLanguage := fun _ _ => "" }

theorem scoresOf_mem_pos (order : List (String × List String))
    (code : String) (e : String × Nat) (he : e ∈ scoresOf order code) :
    1 ≤ e.2 := by
  unfold scoresOf at he
  rcases List.mem_filterMap.mp he with ⟨p, _, hp⟩
  dsimp only at hp
  split at hp
  · rcases Option.some.inj hp with rfl
    simp only []
    omega
  · cases hp

theorem bestPick_foldl_keep (l : List (String × Nat)) (m : String × Nat)
    (h : ∀ e ∈ l, e.2 ≤ m.2) :
    l.foldl (fun best p => if p.2 > best.2 then p else best) m = m := by
  induction l with
  | nil => rfl
  | cons e rest ih =>
    have he : e.2 ≤ m.2 := h e (by simp)
    have hstep : (if e.2 > m.2 then e else m) = m := if_neg (by omega)
    rw [List.foldl_cons, hstep]
    exact ih (fun e2 h2 => h e2 (by simp [h2]))

theorem bestPick_foldl_reach (l : List (String × Nat)) (m : String × Nat) :
    ∀ b : String × Nat, b.2 < m.2 → m ∈ l →
    (∀ e ∈ l, e = m ∨ e.2 < m.2) →
    l.foldl (fun best p => if p.2 > best.2 then p else best) b = m := by
  induction l with
  | nil =>
    intro b _ hm _
    cases hm
  | cons e rest ih =>
    intro b hb hm hmax
    rw [List.foldl_cons]
    rcases hmax e (by simp) with rfl | hlt
    · rw [if_pos (by omega)]
      refine bestPick_foldl_keep rest e (fun e2 h2 => ?_)
      rcases hmax e2 (by simp [h2]) with rfl | h
      · exact le_refl _
      · omega
    · have hne : m ≠ e := by
        intro hcontra
        rw [hcontra] at hlt
        omega
      have hm2 : m ∈ rest := by
        rcases List.mem_cons.mp hm with h | h
        · exact absurd h hne
        · exact h
      by_cases hc : e.2 > b.2
      · rw [if_pos hc]
        exact ih e hlt hm2 (fun e2 h2 => hmax e2 (by simp [h2]))
      · rw [if_neg hc]
        exact ih b hb hm2 (fun e2 h2 => hmax e2 (by simp [h2]))

theorem bestPick_unique_max (l : List (String × Nat)) (m : String × Nat)
    (hm : m ∈ l) (hpos : 1 ≤ m.2)
    (hmax : ∀ e ∈ l, e = m ∨ e.2 < m.2) : bestPick l = m :=
  bestPick_foldl_reach l m ("", 0) (by simpa using hpos) hm hmax

/-- `detectByPatterns` does not depend on the Go-map iteration order
whenever the scores are empty or have a unique maximal entry. -/
theorem detectByPatterns_order_invariant (code : String)
    (o1 o2 : List (String × List String))
    (h1 : o1.Perm patternsList) (h2 : o2.Perm patternsList)
    (hnd : scoresOf patternsList code = [] ∨
      ∃ m, m ∈ scoresOf patternsList code ∧
        ∀ e ∈ scoresOf patternsList code, e = m ∨ e.2 < m.2) :
    Detector.detectByPatterns o1 code =
      Detector.detectByPatterns o2 code := by
  have p1 : (scoresOf o1 code).Perm (scoresOf patternsList code) :=
    h1.filterMap _
  have p2 : (scoresOf o2 code).Perm (scoresOf patternsList code) :=
    h2.filterMap _
  rcases hnd with hempty | ⟨m, hm, hmax⟩
  · have e1 : scoresOf o1 code = [] := List.Perm.eq_nil (hempty ▸ p1)
    have e2 : scoresOf o2 code = [] := List.Perm.eq_nil (hempty ▸ p2)
    unfold Detector.detectByPatterns
    rw [e1, e2]
  · have hpos : 1 ≤ m.2 := scoresOf_mem_pos _ _ m hm
    have b1 : bestPick (scoresOf o1 code) = m :=
      bestPick_unique_max _ m (p1.mem_iff.mpr hm) hpos
        (fun e he => hmax e (p1.mem_iff.mp he))
    have b2 : bestPick (scoresOf o2 code) = m :=
      bestPick_unique_max _ m (p2.mem_iff.mpr hm) hpos
        (fun e he => hmax e (p2.mem_iff.mp he))
    unfold Detector.detectByPatterns
    rw [b1, b2]

end Langdetect

/-! ### Claim C4: catalog lookup by canonical name and aliases -/

open Langdetect in
/-- C4.  For every descriptor in the runtime catalog, looking up its
canonical name returns that descriptor, and looking up any of its aliases
under any letter casing (any string with the same lowercasing as the
alias) returns the same descriptor. -/
theorem C4_catalog_lookup (name : String) (info : RuntimeInfo)
    (hmem : (name, info) ∈ DefaultRuntimes) :
    GetRuntimeInfo name = some info ∧
    ∀ a ∈ info.Aliases, ∀ w, goToLower w = goToLower a →
      GetRuntimeInfo w = some info := by
  constructor
  · have := assocLookup_of_mem DefaultRuntimes name info
      DefaultRuntimes_keys_nodup hmem
    simp [GetRuntimeInfo, this]
  · intro a ha w hw
    unfold GetRuntimeInfo
    cases hfind : assocLookup DefaultRuntimes w with
    | some info' =>
      have hmem' : (w, info') ∈ DefaultRuntimes :=
        mem_of_assocLookup _ _ _ hfind
      have := DefaultRuntimes_no_cross_collision (w, info') hmem'
        (name, info) hmem a ha hw
      simp only at this
      rw [this]
    | none =>
      rw [hw]
      exact (aliasMap_complete (name, info) hmem).1 a ha

open Langdetect in
/-- Witness for C4: the Python descriptor is found by its canonical name
and by the mixed-case alias `"PY"`. -/
theorem C4_catalog_lookup_witness :
    GetRuntimeInfo "Python" =
      some { Language := "Python", Aliases := ["python", "python3", "py"],
             Runtime := "python3", FileExt := ".py",
             RunCommand := ["python3"], CompileCmd := none,
             DockerImage := "python:3.12-slim", REPLMode := false } ∧
    GetRuntimeInfo "PY" =
      some { Language := "Python", Aliases := ["python", "python3", "py"],
             Runtime := "python3", FileExt := ".py",
             RunCommand := ["python3"], CompileCmd := none,
             DockerImage := "python:3.12-slim", REPLMode := false } := by
  have h := C4_catalog_lookup "Python"
    { Language := "Python", Aliases := ["python", "python3", "py"],
      Runtime := "python3", FileExt := ".py", RunCommand := ["python3"],
      CompileCmd := none, DockerImage := "python:3.12-slim",
      REPLMode := false } (by decide)
  exact ⟨h.1, h.2 "py" (by decide) "PY" (by decide)⟩

/-! ### Claim C5: DetectFromFilename on a catalog extension -/

open Langdetect in
/-- C5 counterexample.  `main.py`'s extension `.py` is exactly the Python
descriptor's `FileExt`, yet `DetectFromFilename "main.py"` returns
confidence 0.95 (method `extension`), not 1.0: the custom-mapping table of
a fresh detector is empty and enry's by-filename table has no entry for
`main.py`, so the extension branch decides. -/
theorem C5_filename_confidence_counterexample :
    Detector.DetectFromFilename enryMainPy New "main.py" =
      ⟨"Python", 0.95, "extension"⟩ ∧
    goFilepathExt "main.py" = ".py" ∧
    (assocLookup DefaultRuntimes "Python").isSome = true ∧
    (Detector.DetectFromFilename enryMainPy New "main.py").Confidence ≠ 1 := by
  have h : Detector.DetectFromFilename enryMainPy New "main.py" =
      ⟨"Python", 0.95, "extension"⟩ := rfl
  refine ⟨h, rfl, rfl, ?_⟩
  rw [h]
  norm_num

open Langdetect in
/-- C5 (amended).  For every filename whose extension is the `FileExt` of
a catalog descriptor, whenever enry's by-filename lookup does not safely
resolve the name but its by-extension lookup safely returns the
descriptor's language, a fresh detector's `DetectFromFilename` returns
that descriptor's language with confidence 0.95 and method `extension`
(confidence 1.0 arises only from a registered custom mapping, method
`custom`, or an exact enry filename hit, method `filename`). -/
theorem C5_filename_detection (E : EnryModel) (filename name : String)
    (info : RuntimeInfo)
    (hcat : (name, info) ∈ DefaultRuntimes)
    (hext : goFilepathExt filename = info.FileExt)
    (hfn : (E.GetLanguageByFilename filename).2 = false ∨
      (E.GetLanguageByFilename filename).1 = "")
    (hbyext : E.GetLanguageByExtension filename = (info.Language, true)) :
    Detector.DetectFromFilename E New filename =
      ⟨info.Language, 0.95, "extension"⟩ := by
  rcases hfn with h | h <;>
    simp [Detector.DetectFromFilename, New, assocLookup, h, hbyext]

open Langdetect in
/-- Witness for the amended C5 at `main.py` against the Python
descriptor. -/
theorem C5_filename_detection_witness :
    Detector.DetectFromFilename enryMainPy New "main.py" =
      ⟨"Python", 0.95, "extension"⟩ := by
  exact C5_filename_detection enryMainPy "main.py" "Python"
    { Language := "Python", Aliases := ["python", "python3", "py"],
      Runtime := "python3", FileExt := ".py", RunCommand := ["python3"],
      CompileCmd := none, DockerImage := "python:3.12-slim",
      REPLMode := false }
    (by decide) (by decide) (Or.inl rfl) (by decide)

/-! ## Backend effect traces

Every interaction of a backend instance with the outside world (the OS,
the docker daemon) is recorded in an effect trace, so that "performs no
execution / no backend call" and "performs the teardown exactly once" are
provable statements. -/

/-- One observable backend/OS interaction of an instance method. -/
inductive Effect where
  | writeFile (path : String) (content : String)
  | mkdirAll (path : String)
  | combinedOutput (cmd : List String)
  | run (cmd : List String) (stdin : String)
  | removeAll (path : String)
  | deregisterInstance (id : String)
  | handlerCall (event : Executor.StreamEvent)
  | containerExec (cmd : List String)
  | copyToContainer (path : String) (content : String)
  | containerStop (id : String)
  | containerRemove (id : String)
deriving Repr, DecidableEq

namespace Nsjail

open Executor Langdetect

/-! ## internal/provider/nsjail (Instance)

The instance is a state machine; `os`/`os/exec` interactions go through a
`World` oracle and are recorded as effects.  `cmd.Run()` outcomes are
classified exactly as the source's error analysis does: nil error,
`*exec.ExitError` with an exit code, any other error with the execution
context's deadline exceeded, or any other error. -/

/-- `nsjail.Config`.  The `uint32` fields are natural numbers below
`2^32`. -/
structure Config where
  NsjailPath : String
  Chroot : String
  User : Nat
  Group : Nat
  TimeLimit : Nat
  MaxMemoryMB : Nat
  MaxCPUs : Nat
  MaxPids : Nat
  MaxFileSizeMB : Nat
  EnableNetwork : Bool
  MountProc : Bool
  MountTmp : Bool
  ReadOnlyBindMounts : List String
  ReadWriteBindMounts : List String
  WorkDir : String
deriving Repr, DecidableEq

/-- `nsjail.DefaultConfig`. -/
def DefaultConfig : Config :=
  { NsjailPath := "nsjail", Chroot := "/", User := 65534, Group := 65534,
    TimeLimit := 30, MaxMemoryMB := 256, MaxCPUs := 1, MaxPids := 64,
    MaxFileSizeMB := 64, EnableNetwork := false, MountProc := true,
    MountTmp := true,
    ReadOnlyBindMounts :=
      ["/bin", "/lib", "/lib64", "/usr", "/etc/alternatives", "/etc/ssl"],
    ReadWriteBindMounts := [], WorkDir := "/tmp" }

/-- Outcome of `cmd.Run()` as the source distinguishes it. -/
inductive RunOutcome where
  | ok (stdout stderr : String)
  | exitErr (code : Int) (stdout stderr : String)
  | deadlineExceeded (stdout stderr : String)
  | failed (err : GoError) (stdout stderr : String)
deriving Repr, DecidableEq

/-- The OS oracle for the nsjail instance: file writes and directory
creation may fail; `os.Stat` existence checks drive the bind-mount flags;
`CombinedOutput` returns the compiler's combined output and whether it
returned an error (a non-zero exit); `run` classifies the main
execution; `runDuration` is the measured `time.Since(start)`; `now` is
the clock read for stream events; `streamChunks` is the interleaved
sequence of stdout/stderr chunk reads the two forwarder goroutines
observe; `waitExit` is the exit code analysis of `cmd.Wait()`. -/
structure World where
  writeFile : String → String → Option GoError
  mkdirAll : String → Option GoError
  statExists : String → Bool
  combinedOutput : List String → String × Bool
  run : List String → RunOutcome
  runDuration : Nat
  now : Nat
  streamChunks : List (String × String)
  waitExit : Int

/-- `nsjail.Instance` (the provider back-pointer is modelled by the
`deregisterInstance` effect emitted on stop). -/
structure Instance where
  id : String
  sandboxDir : String
  workDir : String
  config : Config
  timeout : Nat
  env : List (String × String)
  stopped : Bool

/-- `(*Instance).buildNsjailCmd` (internal/provider/nsjail, lines
574-650), the full nsjail argv.  `uint32` multiplications reduce modulo
`2^32` as in Go. -/
def Instance.buildNsjailCmd (w : World) (i : Instance)
    (innerCmd : List String) (opts : ExecutionOptions) : List String :=
  let args := [i.config.NsjailPath, "--mode", "o",
    "--chroot", i.config.Chroot,
    "--user", toString i.config.User,
    "--group", toString i.config.Group,
    "--time_limit", toString i.config.TimeLimit,
    "--rlimit_as", toString i.config.MaxMemoryMB,
    "--rlimit_cpu", toString i.config.TimeLimit,
    "--rlimit_fsize", toString i.config.MaxFileSizeMB,
    "--rlimit_nofile", "64",
    "--rlimit_nproc", toString i.config.MaxPids,
    "--cgroup_pids_max", toString i.config.MaxPids,
    "--cgroup_mem_max",
      toString ((i.config.MaxMemoryMB * 1024 * 1024) % 2 ^ 32)]
  let args := if i.config.MaxCPUs > 0 then
    args ++ ["--cgroup_cpu_ms_per_sec",
      toString ((i.config.MaxCPUs * 1000) % 2 ^ 32)] else args
  let args := if !i.config.EnableNetwork then
    args ++ ["--disable_clone_newnet"] else args
  let args := if i.config.MountProc then
    args ++ ["--mount", "proc:/proc:proc"] else args
  let args := if i.config.MountTmp then
    args ++ ["--mount", "tmpfs:/tmp:tmpfs:size=64M"] else args
  let args := i.config.ReadOnlyBindMounts.foldl (fun a path =>
    if w.statExists path then a ++ ["--bindmount_ro", path] else a) args
  let args := i.config.ReadWriteBindMounts.foldl (fun a path =>
    if w.statExists path then a ++ ["--bindmount", path] else a) args
  let args := args ++ ["--bindmount", i.workDir ++ ":/workspace"]
  let args := args ++ ["--cwd", "/workspace"]
  let args := (opts.Env.getD []).foldl (fun a kv =>
    a ++ ["--env", kv.1 ++ "=" ++ kv.2]) args
  let args := i.env.foldl (fun a kv =>
    a ++ ["--env", kv.1 ++ "=" ++ kv.2]) args
  let args := args ++ ["--env", "PATH=/usr/local/bin:/usr/bin:/bin"]
  let args := args ++ ["--really_quiet"]
  args ++ ["--"] ++ innerCmd

/-- Result of an instance method returning `(*T, error)`: the
Go pair is an `Except`, together with the effect trace. -/
structure MethodOutcome (α : Type) where
  result : Except GoError α
  trace : List Effect

/-- The extra-files loop of `Execute` (lines 502-510): `MkdirAll` the
parent directory then write each file, failing fast. -/
def writeExtraFiles (w : World) (workDir : String) :
    List (String × String) → Option GoError × List Effect
  | [] => (none, [])
  | (path, content) :: rest =>
    let fullPath := workDir ++ "/" ++ path
    match w.mkdirAll fullPath with
    | some err =>
      (some (.wrap ("create dir for " ++ path) err), [.mkdirAll fullPath])
    | none =>
      match w.writeFile fullPath content with
      | some err =>
        (some (.wrap ("write file " ++ path) err),
         [.mkdirAll fullPath, .writeFile fullPath content])
      | none =>
        let r := writeExtraFiles w workDir rest
        (r.1, [.mkdirAll fullPath, .writeFile fullPath content] ++ r.2)

/-- The run phase of `Execute` (lines 531-570): run the command, classify
`cmd.Run()`'s error, and assemble the `ExecutionResult`. -/
def runPhase (w : World) (opts : ExecutionOptions) (runCmd : List String)
    (tr : List Effect) : MethodOutcome ExecutionResult :=
  let tr := tr ++ [.run runCmd opts.Stdin]
  match w.run runCmd with
  | .ok stdout stderr =>
    ⟨.ok { ExitCode := 0, Stdout := stdout, Stderr := stderr,
           Duration := w.runDuration, Language := opts.Language,
           Artifacts := [], Error := none, Metadata := [] }, tr⟩
  | .exitErr code stdout stderr =>
    ⟨.ok { ExitCode := code, Stdout := stdout, Stderr := stderr,
           Duration := w.runDuration, Language := opts.Language,
           Artifacts := [], Error := none, Metadata := [] }, tr⟩
  | .deadlineExceeded _ _ => ⟨.error (.base "execution timeout"), tr⟩
  | .failed err _ _ => ⟨.error (.wrap "execution failed" err), tr⟩

/-- `(*Instance).Execute` (internal/provider/nsjail, lines 477-571):
refuse when stopped; default nil options; resolve the runtime; write
`main<ext>` and the extra files; for compiled languages run the compile
command first and, when it errors, return a result with exit code 1 and
the compiler's combined output as stderr (and a nil error); otherwise run
the run command and assemble the result. -/
def Instance.Execute (w : World) (i : Instance) (code : String)
    (opts? : Option ExecutionOptions) : MethodOutcome ExecutionResult :=
  if i.stopped then ⟨.error (.base "sandbox stopped"), []⟩
  else
    let opts := match opts? with
      | none => DefaultExecutionOptions
      | some o => o
    match GetRuntimeInfo opts.Language with
    | none =>
      ⟨.error (.base ("unsupported language: " ++ opts.Language)), []⟩
    | some runtimeInfo =>
      let codeFilename := "main" ++ runtimeInfo.FileExt
      let codePath := i.workDir ++ "/" ++ codeFilename
      match w.writeFile codePath code with
      | some err =>
        ⟨.error (.wrap "write code file" err),
         [.writeFile codePath code]⟩
      | none =>
        let files := writeExtraFiles w i.workDir (opts.Files.getD [])
        let tr := [Effect.writeFile codePath code] ++ files.2
        match files.1 with
        | some err => ⟨.error err, tr⟩
        | none =>
          let sandboxCodePath := "/workspace/" ++ codeFilename
          match runtimeInfo.CompileCmd with
          | some cc =>
            let compileCmd := i.buildNsjailCmd w
              (cc ++ [sandboxCodePath]) opts
            let co := w.combinedOutput compileCmd
            let tr := tr ++ [.combinedOutput compileCmd]
            if co.2 then
              ⟨.ok { ExitCode := 1, Stdout := "", Stderr := co.1,
                     Duration := 0, Language := opts.Language,
                     Artifacts := [], Error := none, Metadata := [] }, tr⟩
            else
              runPhase w opts (i.buildNsjailCmd w runtimeInfo.RunCommand
                opts) tr
          | none =>
            runPhase w opts (i.buildNsjailCmd w
              (runtimeInfo.RunCommand ++ [sandboxCodePath]) opts) tr

/-- `(*Instance).ExecuteStream` (internal/provider/nsjail, lines
653-773), sequentialised: the two pipe-forwarder goroutines are modelled
by the oracle's interleaved `streamChunks`; handler return values are
discarded exactly as in the source; `handlerCall` effects record every
handler invocation. -/
def Instance.ExecuteStream (w : World) (i : Instance) (code : String)
    (opts? : Option ExecutionOptions) : MethodOutcome Unit :=
  if i.stopped then ⟨.error (.base "sandbox stopped"), []⟩
  else
    let opts := match opts? with
      | none => DefaultExecutionOptions
      | some o => o
    match GetRuntimeInfo opts.Language with
    | none =>
      ⟨.error (.base ("unsupported language: " ++ opts.Language)), []⟩
    | some runtimeInfo =>
      let codeFilename := "main" ++ runtimeInfo.FileExt
      let codePath := i.workDir ++ "/" ++ codeFilename
      match w.writeFile codePath code with
      | some err =>
        ⟨.error (.wrap "write code file" err),
         [.writeFile codePath code]⟩
      | none =>
        let tr := [Effect.writeFile codePath code]
        let sandboxCodePath := "/workspace/" ++ codeFilename
        let afterCompile : Option (List String) × List Effect :=
          match runtimeInfo.CompileCmd with
          | some cc =>
            let compileCmd := i.buildNsjailCmd w
              (cc ++ [sandboxCodePath]) opts
            let co := w.combinedOutput compileCmd
            if co.2 then
              (none, [.combinedOutput compileCmd,
                .handlerCall ⟨StreamStderr, co.1, w.now, 0, none⟩,
                .handlerCall ⟨StreamComplete, "", w.now, 1, none⟩])
            else
              (some (i.buildNsjailCmd w runtimeInfo.RunCommand opts),
               [.combinedOutput compileCmd])
          | none =>
            (some (i.buildNsjailCmd w
              (runtimeInfo.RunCommand ++ [sandboxCodePath]) opts), [])
        match afterCompile.1 with
        | none => ⟨.ok (), tr ++ afterCompile.2⟩
        | some runCmd =>
          let chunkCalls := w.streamChunks.map (fun c =>
            Effect.handlerCall ⟨c.1, c.2, w.now, 0, none⟩)
          ⟨.ok (), tr ++ afterCompile.2 ++ [.run runCmd opts.Stdin] ++
            chunkCalls ++
            [.handlerCall ⟨StreamComplete, "", w.now, w.waitExit, none⟩]⟩

/-- `(*Instance).RunCommand` (internal/provider/nsjail, lines 776-811):
refuse when stopped; otherwise wrap the command in the nsjail argv (with
default execution options) and run it. -/
def Instance.RunCommand (w : World) (i : Instance) (cmd : String)
    (args : List String) : MethodOutcome CommandResult :=
  if i.stopped then ⟨.error (.base "sandbox stopped"), []⟩
  else
    let fullCmd := [cmd] ++ args
    let nsjailCmd := i.buildNsjailCmd w fullCmd DefaultExecutionOptions
    let tr := [Effect.run nsjailCmd ""]
    match w.run nsjailCmd with
    | .ok stdout stderr =>
      ⟨.ok { ExitCode := 0, Stdout := stdout, Stderr := stderr,
             Duration := w.runDuration }, tr⟩
    | .exitErr code stdout stderr =>
      ⟨.ok { ExitCode := code, Stdout := stdout, Stderr := stderr,
             Duration := w.runDuration }, tr⟩
    | .deadlineExceeded _ _ =>
      ⟨.error (.wrap "run command" (.base "context deadline exceeded")), tr⟩
    | .failed err _ _ => ⟨.error (.wrap "run command" err), tr⟩

/-- Outcome of `Stop`: updated instance, returned error, effect trace. -/
structure StopOutcome where
  inst : Instance
  result : Option GoError
  trace : List Effect

/-- `(*Instance).Stop` (internal/provider/nsjail, lines 824-844): a
flip-and-check on the stopped flag; the first call removes the sandbox
directory (when set) and deregisters the instance from its provider;
later calls return nil without any effect. -/
def Instance.Stop (i : Instance) : StopOutcome :=
  if i.stopped then ⟨i, none, []⟩
  else
    let i := { i with stopped := true }
    let tr := if i.sandboxDir ≠ "" then [Effect.removeAll i.sandboxDir]
      else []
    ⟨i, none, tr ++ [.deregisterInstance i.id]⟩

/-- Iterated `Stop`: the list of returned errors and the concatenated
effect trace of `n` successive calls. -/
def stopN (i : Instance) : Nat → Instance × List (Option GoError) × List Effect
  | 0 => (i, [], [])
  | n + 1 =>
    let r := i.Stop
    let rest := stopN r.inst n
    (rest.1, r.result :: rest.2.1, r.trace ++ rest.2.2)

end Nsjail

namespace Docker

open Executor Langdetect

/-! ## internal/provider/docker (Instance)

The docker daemon is modelled by an oracle: the `n`-th
`ContainerExecCreate`/`Attach`/`StdCopy`/`ExecInspect` sequence issued by
the instance yields the `n`-th `ExecStep` (either an API failure at a
specific stage or a finished command with an exit code and demultiplexed
output).  `CopyToContainer` (file writes via tar) and
`ContainerStop`/`ContainerRemove` have their own oracle entries.  A
non-zero exit code of an exec'd command is *not* an error in the docker
API: it is only visible in the inspected exit code, exactly as in the
source. -/

/-- `docker.Config`. -/
structure Config where
  Host : String
  APIVersion : String
  TLSVerify : Bool
  CertPath : String
  RegistryAuth : List (String × String)
  DefaultImage : String
deriving Repr, DecidableEq

/-- `docker.DefaultConfig`. -/
def DefaultConfig : Config :=
  { Host := "", APIVersion := "", TLSVerify := false, CertPath := "",
    RegistryAuth := [], DefaultImage := "python:3.12-slim" }

/-- Outcome of one container-exec sequence, by failure stage. -/
inductive ExecStep where
  | createError (err : GoError)
  | attachError (err : GoError)
  | readError (err : GoError)
  | inspectError (err : GoError)
  | finished (exitCode : Int) (stdout stderr : String)
deriving Repr, DecidableEq

/-- The docker-daemon oracle.  `ctxDeadlineExceeded` models
`execCtx.Err() == context.DeadlineExceeded` at the moment the run-phase
exec fails; `sinceStart` is the measured duration; `streamChunks` is the
interleaved chunk sequence the two stream-forwarder goroutines observe in
`ExecuteStream`. -/
structure World where
  exec : Nat → ExecStep
  copyToContainer : String → String → Option GoError
  containerStop : Option GoError
  containerRemove : Option GoError
  ctxDeadlineExceeded : Bool
  sinceStart : Nat
  now : Nat
  streamChunks : List (String × String)

/-- `docker.Instance`. -/
structure Instance where
  id : String
  config : Config
  workDir : String
  timeout : Nat
  stopped : Bool

/-- Result plus effect trace of an instance method (same shape as the
nsjail one). -/
structure MethodOutcome (α : Type) where
  result : Except GoError α
  trace : List Effect

/-- `(*Instance).runExec` (internal/provider/docker, lines 324-374):
create, attach, demultiplex and inspect one container exec; the returned
`ExecutionResult` carries only exit code and output (duration and
language are filled by the caller).  `n` is the index of this exec call
against the oracle. -/
def Instance.runExec (w : World) (_i : Instance) (n : Nat)
    (cmd : List String) : Except GoError ExecutionResult × List Effect :=
  let tr := [Effect.containerExec cmd]
  match w.exec n with
  | .createError err => (.error (.wrap "create exec" err), tr)
  | .attachError err => (.error (.wrap "attach exec" err), tr)
  | .readError err => (.error (.wrap "read output" err), tr)
  | .inspectError err => (.error (.wrap "inspect exec" err), tr)
  | .finished exitCode stdout stderr =>
    (.ok { ExitCode := exitCode, Stdout := stdout, Stderr := stderr,
           Duration := 0, Language := "", Artifacts := [], Error := none,
           Metadata := [] }, tr)

/-- The extra-files loop of docker `Execute` (lines 279-283): each file is
copied into the container, failing fast. -/
def writeExtraFiles (w : World) :
    List (String × String) → Option GoError × List Effect
  | [] => (none, [])
  | (path, content) :: rest =>
    match w.copyToContainer path content with
    | some err =>
      (some (.wrap ("write file " ++ path) err),
       [.copyToContainer path content])
    | none =>
      let r := writeExtraFiles w rest
      (r.1, [.copyToContainer path content] ++ r.2)

/-- `(*Instance).Execute` (internal/provider/docker, lines 249-321):
refuse when stopped; default nil options; resolve the runtime; copy
`main<ext>` and the extra files into the container; for compiled
languages run the compile exec first, returning an error only when the
exec *API* fails (the compile command's own exit code is not inspected);
then run the run command, classify a deadline expiry, and stamp duration
and language onto the result. -/
def Instance.Execute (w : World) (i : Instance) (code : String)
    (opts? : Option ExecutionOptions) : MethodOutcome ExecutionResult :=
  if i.stopped then ⟨.error (.base "container stopped"), []⟩
  else
    let opts := match opts? with
      | none => DefaultExecutionOptions
      | some o => o
    match GetRuntimeInfo opts.Language with
    | none =>
      ⟨.error (.base ("unsupported language: " ++ opts.Language)), []⟩
    | some runtimeInfo =>
      let codeFilename := "main" ++ runtimeInfo.FileExt
      let codePath := opts.WorkDir ++ "/" ++ codeFilename
      let codePath := if codePath = "" then i.workDir ++ "/" ++ codeFilename
        else codePath
      match w.copyToContainer codePath code with
      | some err =>
        ⟨.error (.wrap "write code file" err),
         [.copyToContainer codePath code]⟩
      | none =>
        let files := writeExtraFiles w (opts.Files.getD [])
        let tr := [Effect.copyToContainer codePath code] ++ files.2
        match files.1 with
        | some err => ⟨.error err, tr⟩
        | none =>
          -- compile phase: the exec result is discarded, only an API
          -- error aborts
          let afterCompile : Option GoError × Nat × List Effect :=
            match runtimeInfo.CompileCmd with
            | some cc =>
              let compileCmd := cc ++ [codePath]
              let r := i.runExec w 0 compileCmd
              match r.1 with
              | .error err => (some (.wrap "compile" err), 1, r.2)
              | .ok _ => (none, 1, r.2)
            | none => (none, 0, [])
          match afterCompile.1 with
          | some err => ⟨.error err, tr ++ afterCompile.2.2⟩
          | none =>
            let cmd := match runtimeInfo.CompileCmd with
              | some _ => runtimeInfo.RunCommand
              | none => runtimeInfo.RunCommand ++ [codePath]
            let r := i.runExec w afterCompile.2.1 cmd
            let tr := tr ++ afterCompile.2.2 ++ r.2
            match r.1 with
            | .error err =>
              if w.ctxDeadlineExceeded then
                ⟨.error (.wrap ("execution timed out after " ++
                  toString opts.Timeout ++ "ns") err), tr⟩
              else ⟨.error err, tr⟩
            | .ok result =>
              ⟨.ok { result with
                  Duration := w.sinceStart
                  Language := opts.Language }, tr⟩

/-- `(*Instance).ExecuteStream` (internal/provider/docker, lines
396-522), sequentialised like the nsjail one: the compile phase behaves
as in `Execute` (no exit-code inspection, no events emitted for it); the
run phase attaches, forwards the oracle's interleaved chunks to the
handler, inspects the exit code and emits the terminal complete event.
(A `readError` oracle step — whose error the source discards in a
goroutine before inspecting — is conservatively folded into the inspect
failure; no claim exercises that corner.) -/
def Instance.ExecuteStream (w : World) (i : Instance) (code : String)
    (opts? : Option ExecutionOptions) : MethodOutcome Unit :=
  if i.stopped then ⟨.error (.base "container stopped"), []⟩
  else
    let opts := match opts? with
      | none => DefaultExecutionOptions
      | some o => o
    match GetRuntimeInfo opts.Language with
    | none =>
      ⟨.error (.base ("unsupported language: " ++ opts.Language)), []⟩
    | some runtimeInfo =>
      let codeFilename := "main" ++ runtimeInfo.FileExt
      let codePath := opts.WorkDir ++ "/" ++ codeFilename
      let codePath := if codePath = "" then i.workDir ++ "/" ++ codeFilename
        else codePath
      match w.copyToContainer codePath code with
      | some err =>
        ⟨.error (.wrap "write code file" err),
         [.copyToContainer codePath code]⟩
      | none =>
        let tr := [Effect.copyToContainer codePath code]
        let afterCompile : Option GoError × Nat × List Effect :=
          match runtimeInfo.CompileCmd with
          | some cc =>
            let compileCmd := cc ++ [codePath]
            let r := i.runExec w 0 compileCmd
            match r.1 with
            | .error err => (some (.wrap "compile" err), 1, r.2)
            | .ok _ => (none, 1, r.2)
          | none => (none, 0, [])
        match afterCompile.1 with
        | some err => ⟨.error err, tr ++ afterCompile.2.2⟩
        | none =>
          let cmd := match runtimeInfo.CompileCmd with
            | some _ => runtimeInfo.RunCommand
            | none => runtimeInfo.RunCommand ++ [codePath]
          let n := afterCompile.2.1
          let tr := tr ++ afterCompile.2.2 ++ [Effect.containerExec cmd]
          match w.exec n with
          | .createError err => ⟨.error (.wrap "create exec" err), tr⟩
          | .attachError err => ⟨.error (.wrap "attach exec" err), tr⟩
          | .readError err => ⟨.error (.wrap "inspect exec" err), tr⟩
          | .inspectError err => ⟨.error (.wrap "inspect exec" err), tr⟩
          | .finished exitCode _ _ =>
            let chunkCalls := w.streamChunks.map (fun c =>
              Effect.handlerCall ⟨c.1, c.2, w.now, 0, none⟩)
            ⟨.ok (), tr ++ chunkCalls ++
              [.handlerCall ⟨StreamComplete, "", w.now, exitCode, none⟩]⟩

/-- `(*Instance).RunCommand` (internal/provider/docker, lines 525-570):
refuse when stopped; otherwise run one exec sequence and return a
`CommandResult` with the measured duration. -/
def Instance.RunCommand (w : World) (i : Instance) (cmd : String)
    (args : List String) : MethodOutcome CommandResult :=
  if i.stopped then ⟨.error (.base "container stopped"), []⟩
  else
    let fullCmd := [cmd] ++ args
    let tr := [Effect.containerExec fullCmd]
    match w.exec 0 with
    | .createError err => ⟨.error (.wrap "create exec" err), tr⟩
    | .attachError err => ⟨.error (.wrap "attach exec" err), tr⟩
    | .readError err => ⟨.error (.wrap "read output" err), tr⟩
    | .inspectError err => ⟨.error (.wrap "inspect exec" err), tr⟩
    | .finished exitCode stdout stderr =>
      ⟨.ok { ExitCode := exitCode, Stdout := stdout, Stderr := stderr,
             Duration := w.sinceStart }, tr⟩

/-- Outcome of docker `Stop`. -/
structure StopOutcome where
  inst : Instance
  result : Option GoError
  trace : List Effect

/-- `(*Instance).Stop` (internal/provider/docker, lines 587-612): a
flip-and-check on the stopped flag; the first call stops and removes the
container, ignoring "No such container" errors; later calls return nil
without any backend call. -/
def Instance.Stop (w : World) (i : Instance) : StopOutcome :=
  if i.stopped then ⟨i, none, []⟩
  else
    let i := { i with stopped := true }
    match w.containerStop with
    | some err =>
      if ¬ goContains err.msg "No such container" then
        ⟨i, some (.wrap "stop container" err), [.containerStop i.id]⟩
      else
        match w.containerRemove with
        | some err2 =>
          if ¬ goContains err2.msg "No such container" then
            ⟨i, some (.wrap "remove container" err2),
             [.containerStop i.id, .containerRemove i.id]⟩
          else ⟨i, none, [.containerStop i.id, .containerRemove i.id]⟩
        | none => ⟨i, none, [.containerStop i.id, .containerRemove i.id]⟩
    | none =>
      match w.containerRemove with
      | some err2 =>
        if ¬ goContains err2.msg "No such container" then
          ⟨i, some (.wrap "remove container" err2),
           [.containerStop i.id, .containerRemove i.id]⟩
        else ⟨i, none, [.containerStop i.id, .containerRemove i.id]⟩
      | none => ⟨i, none, [.containerStop i.id, .containerRemove i.id]⟩

/-- Iterated docker `Stop` against a fixed oracle. -/
def stopN (w : World) (i : Instance) :
    Nat → Instance × List (Option GoError) × List Effect
  | 0 => (i, [], [])
  | n + 1 =>
    let r := i.Stop w
    let rest := stopN w r.inst n
    (rest.1, r.result :: rest.2.1, r.trace ++ rest.2.2)

end Docker

/-! ## Concrete oracles for witnesses -/

/-- A quiet nsjail OS oracle: every interaction succeeds trivially. -/
def Nsjail.quietWorld : Nsjail.World :=
  { writeFile := fun _ _ => none, mkdirAll := fun _ => none,
    statExists := fun _ => false, combinedOutput := fun _ => ("", false),
    run := fun _ => .ok "" "", runDuration := 0, now := 0,
    streamChunks := [], waitExit := 0 }

/-- A quiet docker oracle: every call succeeds, every exec exits 0. -/
def Docker.quietWorld : Docker.World :=
  { exec := fun _ => .finished 0 "" "",
    copyToContainer := fun _ _ => none, containerStop := none,
    containerRemove := none, ctxDeadlineExceeded := false,
    sinceStart := 0, now := 0, streamChunks := [] }

/-- A stopped nsjail instance. -/
def Nsjail.stoppedInstance : Nsjail.Instance :=
  { id := "nsjail-1", sandboxDir := "/tmp/nsjail-1",
    workDir := "/tmp/nsjail-1/workspace", config := Nsjail.DefaultConfig,
    timeout := 0, env := [], stopped := true }

/-- A stopped docker instance. -/
def Docker.stoppedInstance : Docker.Instance :=
  { id := "c0ffee", config := Docker.DefaultConfig,
    workDir := "/workspace", timeout := 0, stopped := true }

/-! ### Claim C1: stopped instances are terminal -/

open Executor in
/-- C1 counterexample.  A stopped docker instance refuses `Execute` with
the error message `"container stopped"`, not `"sandbox stopped"`: the
claim's universally quoted error text does not hold for the docker
backend (the behaviour — refusal, no backend call — does). -/
theorem C1_stopped_message_counterexample :
    (Docker.Instance.Execute Docker.quietWorld Docker.stoppedInstance
      "print(1)" none).result = .error (.base "container stopped") ∧
    (Docker.Instance.Execute Docker.quietWorld Docker.stoppedInstance
      "print(1)" none).trace = [] ∧
    GoError.base "container stopped" ≠ GoError.base "sandbox stopped" := by
  refine ⟨rfl, rfl, by decide⟩

open Executor in
/-- C1 (amended).  Once an instance's stopped flag is set, every
`Execute`, `ExecuteStream` and `RunCommand` call returns a stopped-
instance error — message `"sandbox stopped"` for the nsjail backend,
`"container stopped"` for the docker backend — with an empty effect trace
(no execution, no OS or daemon call is performed), and a further `Stop`
is a no-op: it returns nil, leaves the instance unchanged and performs no
backend call, for every oracle. -/
theorem C1_stopped_terminal (wN : Nsjail.World) (iN : Nsjail.Instance)
    (wD : Docker.World) (iD : Docker.Instance) (code : String)
    (optsN optsD : Option ExecutionOptions) (cmd : String)
    (args : List String) (hN : iN.stopped = true) (hD : iD.stopped = true) :
    (iN.Execute wN code optsN =
        ⟨.error (.base "sandbox stopped"), []⟩ ∧
      iN.ExecuteStream wN code optsN =
        ⟨.error (.base "sandbox stopped"), []⟩ ∧
      iN.RunCommand wN cmd args =
        ⟨.error (.base "sandbox stopped"), []⟩ ∧
      iN.Stop = ⟨iN, none, []⟩) ∧
    (iD.Execute wD code optsD =
        ⟨.error (.base "container stopped"), []⟩ ∧
      iD.ExecuteStream wD code optsD =
        ⟨.error (.base "container stopped"), []⟩ ∧
      iD.RunCommand wD cmd args =
        ⟨.error (.base "container stopped"), []⟩ ∧
      iD.Stop wD = ⟨iD, none, []⟩) := by
  refine ⟨⟨?_, ?_, ?_, ?_⟩, ?_, ?_, ?_, ?_⟩ <;>
    simp [Nsjail.Instance.Execute, Nsjail.Instance.ExecuteStream,
      Nsjail.Instance.RunCommand, Nsjail.Instance.Stop,
      Docker.Instance.Execute, Docker.Instance.ExecuteStream,
      Docker.Instance.RunCommand, Docker.Instance.Stop, hN, hD]

open Executor in
/-- Witness for the amended C1 at the concrete stopped instances and
quiet oracles. -/
theorem C1_stopped_terminal_witness :
    (Nsjail.Instance.Execute Nsjail.quietWorld Nsjail.stoppedInstance
      "print(1)" none).result = .error (.base "sandbox stopped") ∧
    (Nsjail.Instance.RunCommand Nsjail.quietWorld Nsjail.stoppedInstance
      "ls" []).trace = [] ∧
    (Nsjail.stoppedInstance.Stop).result = none ∧
    (Docker.Instance.ExecuteStream Docker.quietWorld
      Docker.stoppedInstance "print(1)" none).result =
      .error (.base "container stopped") ∧
    (Docker.stoppedInstance.Stop Docker.quietWorld).trace = [] := by
  have h := C1_stopped_terminal Nsjail.quietWorld Nsjail.stoppedInstance
    Docker.quietWorld Docker.stoppedInstance "print(1)" none none "ls" []
    rfl rfl
  refine ⟨by rw [h.1.1], by rw [h.1.2.2.1], by rw [h.1.2.2.2],
    by rw [h.2.2.1], by rw [h.2.2.2.2]⟩

/-! ### Claim C2: compile failure surfaces as exit 1 + stderr -/

/-- The docker oracle of the failing input: the compile exec (index 0)
exits 1 with gcc diagnostics, the run exec (index 1) exits 127 because
the binary was never produced. -/
def Docker.compileFailWorld : Docker.World :=
  { exec := fun n =>
      if n = 0 then .finished 1 "" "main.c:1:1: error: expected declaration"
      else .finished 127 "" "sh: /tmp/main: not found",
    copyToContainer := fun _ _ => none, containerStop := none,
    containerRemove := none, ctxDeadlineExceeded := false,
    sinceStart := 5, now := 0, streamChunks := [] }

/-- A running docker instance for the failing input. -/
def Docker.cInstance : Docker.Instance :=
  { id := "c1", config := Docker.DefaultConfig, workDir := "/workspace",
    timeout := 0, stopped := false }

open Executor in
/-- C2 (code bug, docker backend).  Executing C code on the docker
instance when the compile exec exits 1 with diagnostics: `Execute` does
not return the claimed `Result{exitCode 1, stderr = compiler output}` —
the compile exec's exit code is never inspected (`runExec` only fails on
docker-API errors), so execution proceeds to the run command and the
caller receives the run phase's exit 127 result; the compiler diagnostics
are lost.  The nsjail backend does implement the claimed contract
(`Sindoq.nsjail_compile_failure_result` below). -/
theorem C2_docker_compile_failure :
    (Docker.Instance.Execute Docker.compileFailWorld Docker.cInstance
        "int main(" (some { DefaultExecutionOptions with Language := "C" })).result =
      .ok { ExitCode := 127, Stdout := "",
            Stderr := "sh: /tmp/main: not found", Duration := 5,
            Language := "C", Artifacts := [], Error := none,
            Metadata := [] } ∧
    (Docker.Instance.Execute Docker.compileFailWorld Docker.cInstance
        "int main(" (some { DefaultExecutionOptions with Language := "C" })).trace.countP
        (fun e => match e with
          | Effect.containerExec _ => true
          | _ => false) = 2 ∧
    (Docker.Instance.Execute Docker.compileFailWorld Docker.cInstance
        "int main(" (some { DefaultExecutionOptions with Language := "C" })).result ≠
      .ok { ExitCode := 1, Stdout := "",
            Stderr := "main.c:1:1: error: expected declaration",
            Duration := 5, Language := "C", Artifacts := [],
            Error := none, Metadata := [] } := by
  refine ⟨by decide, by decide, by decide⟩

open Executor Langdetect in
/-- The nsjail backend's compile branch as the spec describes it: when
the language's descriptor has a compile command and the compile
invocation errors (non-zero exit), `Execute` returns a nil error and a
result with exit code 1, the compiler's combined output as stderr, and
the options' language — without running the run command. -/
theorem nsjail_compile_failure_result (w : Nsjail.World)
    (i : Nsjail.Instance) (code : String) (opts : Executor.ExecutionOptions)
    (rt : RuntimeInfo) (cc : List String)
    (hrun : i.stopped = false)
    (hrt : GetRuntimeInfo opts.Language = some rt)
    (hcc : rt.CompileCmd = some cc)
    (hwrite : ∀ p c, w.writeFile p c = none)
    (hfiles : opts.Files = some [])
    (hcompile : (w.combinedOutput (i.buildNsjailCmd w
      (cc ++ ["/workspace/" ++ ("main" ++ rt.FileExt)]) opts)).2 = true) :
    (i.Execute w code (some opts)).result =
      .ok { ExitCode := 1, Stdout := "",
            Stderr := (w.combinedOutput (i.buildNsjailCmd w
              (cc ++ ["/workspace/" ++ ("main" ++ rt.FileExt)]) opts)).1,
            Duration := 0, Language := opts.Language, Artifacts := [],
            Error := none, Metadata := [] } ∧
    (i.Execute w code (some opts)).trace.countP
      (fun e => match e with
        | Effect.run _ _ => true
        | _ => false) = 0 := by
  constructor <;>
    simp [Nsjail.Instance.Execute, hrun, hrt, hcc, hwrite, hfiles,
      Nsjail.writeExtraFiles, hcompile]

/-! ### Claim C6: Stop is flip-and-check, teardown exactly once -/

theorem Nsjail.Stop_stopped_nsjail (i : Nsjail.Instance) (h : i.stopped = true) :
    i.Stop = ⟨i, none, []⟩ := by
  simp [Instance.Stop, h]

theorem Nsjail.Stop_inst_stopped_nsjail (i : Nsjail.Instance) :
    (i.Stop).inst.stopped = true := by
  by_cases h : i.stopped <;> simp [Instance.Stop, h]

theorem Nsjail.stopN_stopped_nsjail (i : Nsjail.Instance) (h : i.stopped = true) :
    ∀ n, Nsjail.stopN i n = (i, List.replicate n none, []) := by
  intro n
  induction n with
  | zero => rfl
  | succ n ih => simp [stopN, Stop_stopped_nsjail i h, ih, List.replicate_succ]

theorem Docker.Stop_stopped_docker (w : Docker.World) (i : Docker.Instance)
    (h : i.stopped = true) : i.Stop w = ⟨i, none, []⟩ := by
  simp [Instance.Stop, h]

theorem Docker.Stop_inst_stopped_docker (w : Docker.World) (i : Docker.Instance) :
    (i.Stop w).inst.stopped = true := by
  by_cases h : i.stopped
  · simp [Instance.Stop, h]
  · simp only [Instance.Stop, h, Bool.false_eq_true, if_false]
    cases w.containerStop with
    | none =>
      cases w.containerRemove with
      | none => rfl
      | some err2 =>
        dsimp only
        split_ifs <;> rfl
    | some err =>
      dsimp only
      split_ifs with h1
      · cases w.containerRemove with
        | none => rfl
        | some err2 =>
          dsimp only
          split_ifs <;> rfl
      · rfl

theorem Docker.stopN_stopped_docker (w : Docker.World) (i : Docker.Instance)
    (h : i.stopped = true) :
    ∀ n, Docker.stopN w i n = (i, List.replicate n none, []) := by
  intro n
  induction n with
  | zero => rfl
  | succ n ih => simp [stopN, Stop_stopped_docker w i h, ih, List.replicate_succ]

open Nsjail Docker in
/-- C6.  For both backends, calling `Stop` `N ≥ 2` times on a running
instance performs the backend teardown exactly once — on the first call,
whose effect trace is the whole trace of all `N` calls and contains the
teardown exactly once — and returns nil on calls 2 through `N`; the
no-op on the later calls derives from the instance's own stopped flag
alone: a second `Stop` returns nil with an empty trace against *every*
backend oracle. -/
theorem C6_stop_once (iN : Nsjail.Instance) (wD : Docker.World)
    (iD : Docker.Instance) (N : Nat)
    (hN : iN.stopped = false) (hD : iD.stopped = false) (h2 : 2 ≤ N) :
    (Nsjail.stopN iN N =
       ((iN.Stop).inst,
        (iN.Stop).result :: List.replicate (N - 1) none,
        (iN.Stop).trace) ∧
     (iN.Stop).result = none ∧
     (iN.Stop).trace.count (Effect.deregisterInstance iN.id) = 1) ∧
    (Docker.stopN wD iD N =
       ((iD.Stop wD).inst,
        (iD.Stop wD).result :: List.replicate (N - 1) none,
        (iD.Stop wD).trace) ∧
     (iD.Stop wD).trace.count (Effect.containerStop iD.id) = 1 ∧
     ∀ w', ((iD.Stop wD).inst).Stop w' =
       ⟨(iD.Stop wD).inst, none, []⟩) := by
  obtain ⟨n, rfl⟩ : ∃ n, N = n + 1 := by
    cases N with
    | zero => omega
    | succ n => exact ⟨n, rfl⟩
  refine ⟨⟨?_, ?_, ?_⟩, ?_, ?_, ?_⟩
  · show Nsjail.stopN iN (n + 1) = _
    have hrest := Nsjail.stopN_stopped_nsjail (iN.Stop).inst
      (Nsjail.Stop_inst_stopped_nsjail iN) n
    simp [Nsjail.stopN, hrest]
  · simp [Nsjail.Instance.Stop, hN]
  · simp only [Nsjail.Instance.Stop, hN, Bool.false_eq_true, if_false]
    split_ifs <;> simp [List.count_cons, List.count_nil]
  · show Docker.stopN wD iD (n + 1) = _
    have hrest := Docker.stopN_stopped_docker wD ((iD.Stop wD).inst)
      (Docker.Stop_inst_stopped_docker wD iD) n
    simp [Docker.stopN, hrest]
  · simp only [Docker.Instance.Stop, hD, Bool.false_eq_true, if_false]
    cases wD.containerStop with
    | none =>
      cases wD.containerRemove with
      | none => simp [List.count_cons, List.count_nil]
      | some err2 =>
        dsimp only
        split_ifs <;> simp [List.count_cons, List.count_nil]
    | some err =>
      dsimp only
      split_ifs with h1
      · cases wD.containerRemove with
        | none => simp [List.count_cons, List.count_nil]
        | some err2 =>
          dsimp only
          split_ifs <;> simp [List.count_cons, List.count_nil]
      · simp [List.count_cons, List.count_nil]
  · intro w'
    exact Docker.Stop_stopped_docker w' ((iD.Stop wD).inst)
      (Docker.Stop_inst_stopped_docker wD iD)

open Nsjail Docker in
/-- Witness for C6: three `Stop` calls on concrete running instances
return `[nil, nil, nil]` and produce only the first call's teardown
trace. -/
theorem C6_stop_once_witness :
    Nsjail.stopN
      { id := "nsjail-1", sandboxDir := "/tmp/nsjail-1",
        workDir := "/tmp/nsjail-1/workspace", config := Nsjail.DefaultConfig,
        timeout := 0, env := [], stopped := false } 3 =
      ({ id := "nsjail-1", sandboxDir := "/tmp/nsjail-1",
         workDir := "/tmp/nsjail-1/workspace",
         config := Nsjail.DefaultConfig, timeout := 0, env := [],
         stopped := true }, [none, none, none],
       [.removeAll "/tmp/nsjail-1", .deregisterInstance "nsjail-1"]) ∧
    Docker.stopN Docker.quietWorld
      { id := "c0ffee", config := Docker.DefaultConfig,
        workDir := "/workspace", timeout := 0, stopped := false } 3 =
      ({ id := "c0ffee", config := Docker.DefaultConfig,
         workDir := "/workspace", timeout := 0, stopped := true },
       [none, none, none],
       [.containerStop "c0ffee", .containerRemove "c0ffee"]) := by
  have h := C6_stop_once
    { id := "nsjail-1", sandboxDir := "/tmp/nsjail-1",
      workDir := "/tmp/nsjail-1/workspace", config := Nsjail.DefaultConfig,
      timeout := 0, env := [], stopped := false }
    Docker.quietWorld
    { id := "c0ffee", config := Docker.DefaultConfig,
      workDir := "/workspace", timeout := 0, stopped := false }
    3 rfl rfl (by omega)
  constructor
  · rw [h.1.1]
    rfl
  · rw [h.2.1]
    rfl

/-! ### Claim C8: detection determinism -/

open Langdetect in
/-- C8 counterexample.  On the code `println(x)` with only the heuristic
stage enabled, Kotlin and Scala tie at the highest match count (one
each), and the result of `Detect` depends on the Go-map iteration order
of the heuristic pattern table: the source order yields Kotlin, the
reversed order — an equally possible iteration order — yields Scala.
Two calls with the same inputs can therefore disagree. -/
theorem C8_detection_tie_counterexample :
    patternsList.reverse.Perm patternsList ∧
    scoresOf patternsList "println(x)" = [("Kotlin", 1), ("Scala", 1)] ∧
    (Detector.Detect enryNone patternsList New "println(x)"
      (some ⟨"", false, false, true⟩)).Language = "Kotlin" ∧
    (Detector.Detect enryNone patternsList.reverse New "println(x)"
      (some ⟨"", false, false, true⟩)).Language = "Scala" ∧
    Detector.Detect enryNone patternsList New "println(x)"
      (some ⟨"", false, false, true⟩) ≠
    Detector.Detect enryNone patternsList.reverse New "println(x)"
      (some ⟨"", false, false, true⟩) := by
  have hK : (Detector.Detect enryNone patternsList New "println(x)"
      (some ⟨"", false, false, true⟩)).Language = "Kotlin" := rfl
  have hS : (Detector.Detect enryNone patternsList.reverse New "println(x)"
      (some ⟨"", false, false, true⟩)).Language = "Scala" := rfl
  refine ⟨List.reverse_perm _, rfl, hK, hS, fun h => ?_⟩
  have hcontra : ("Kotlin" : String) = "Scala" :=
    (hK.symm.trans (congrArg DetectResult.Language h)).trans hS
  exact absurd hcontra (by decide)

open Langdetect in
/-- C8 (amended).  Detection is deterministic whenever the heuristic
score table for the code is empty or has a unique highest-scoring
language: for every enry behaviour, every code and options, and any two
iteration orders of the heuristic pattern map (permutations of the
source table), the two `Detect` calls return equal results.  When
several languages tie on the highest match count, the heuristic winner
depends on the map iteration order (see the counterexample), so equality
is not guaranteed. -/
theorem C8_detection_deterministic (E : EnryModel) (code : String)
    (opts? : Option DetectOptions) (o1 o2 : List (String × List String))
    (h1 : o1.Perm patternsList) (h2 : o2.Perm patternsList)
    (hnd : scoresOf patternsList code = [] ∨
      ∃ m, m ∈ scoresOf patternsList code ∧
        ∀ e ∈ scoresOf patternsList code, e = m ∨ e.2 < m.2) :
    Detector.Detect E o1 New code opts? =
      Detector.Detect E o2 New code opts? := by
  have key := detectByPatterns_order_invariant code o1 o2 h1 h2 hnd
  simp only [Detector.Detect, key]

open Langdetect in
/-- Witness for the amended C8: on the code `:=` only Go scores, so the
source order and the reversed order agree. -/
theorem C8_detection_deterministic_witness :
    Detector.Detect enryNone patternsList New ":="
      (some ⟨"", false, false, true⟩) =
    Detector.Detect enryNone patternsList.reverse New ":="
      (some ⟨"", false, false, true⟩) := by
  refine C8_detection_deterministic enryNone ":="
    (some ⟨"", false, false, true⟩) patternsList patternsList.reverse
    (List.Perm.refl _) (List.reverse_perm _) (Or.inr ?_)
  refine ⟨("Go", 1), ?_, ?_⟩
  · rw [show scoresOf patternsList ":=" = [("Go", 1)] from rfl]
    simp
  · intro e he
    rw [show scoresOf patternsList ":=" = [("Go", 1)] from rfl] at he
    simp only [List.mem_singleton] at he
    exact Or.inl he

end Sindoq
